import Mathlib

/-!
# RATIP dashboard: the live-state engine of `src/App.jsx`

A shallow embedding of the state-carrying logic of the `RATIP` React component
(`ratip_alarm_dashboard/src/App.jsx`): the eight `useState` cells, the health probe
`checkBackendHealth`, the query submit `handleAIQuery` with its two UI triggers, and the
three generators (`generateTelemetryData`, `generateAlarms`, the correlations effect).

Conventions of the embedding.

* The component state is the record `State`; a `setX(v)` call is the record update
  `{ s with x := v }`.
* An `async` function is split at its `await`: the part before the first `await` runs on the
  state of the render whose closure is invoked, the part after it runs on the state present
  when the promise settles.  The network is an explicit input `FetchOutcome`.
* An expression that may throw evaluates in `Except JsError`; a block of statements ends in a
  `Completion` (normal or thrown, with the state reached), on which `try`/`catch`/`finally` act.
* `Math.random()` and `Date.now()` are explicit inputs.  Numbers are IEEE-754 binary64 values,
  represented by the rational they denote; every arithmetic operation of the source is followed
  by the round-to-nearest-even step `roundDouble`.
-/

namespace RATIP

/-! ## JavaScript values -/

/-- A JavaScript Number: a finite binary64 value (given by the rational it denotes), negative
zero, an infinity, or NaN. -/
inductive JsNumber where
  | finite (x : ℚ)
  | negZero
  | posInf
  | negInf
  | nan

/-- The JavaScript values this program can hold in `aiResponse` or read out of a parsed JSON
body.  An `object` lists its own properties (keys distinct, as `JSON.parse` leaves them). -/
inductive JsValue where
  | undefined
  | null
  | bool (b : Bool)
  | number (x : JsNumber)
  | string (s : String)
  | array (items : List JsValue)
  | object (props : List (String × JsValue))

/-- A thrown JavaScript `Error` object (`TypeError`, `SyntaxError`, `DOMException`, ...). -/
structure JsError where
  name : String
  message : String

/-- Host-defined text: everything the ECMAScript host (engine and locale) decides and this
program only passes through. -/
structure Host where
  /-- Result of `Number::toString` in radix 10. -/
  numberToString : JsNumber → String
  /-- Message of the `TypeError` raised by reading property `key` of `null`/`undefined`. -/
  nullReadMessage : String → String
  /-- Message of the `TypeError` raised when an object has no primitive value. -/
  toPrimitiveMessage : String
  /-- Result of `Date.prototype.toLocaleTimeString()` for a valid time value. -/
  toLocaleTimeString : Int → String
  /-- Result of `Date.prototype.toLocaleString()` for a valid time value. -/
  toLocaleString : Int → String
  /-- Message of the `RangeError` raised by `toISOString` on an invalid date. -/
  invalidTimeMessage : String

/-- ECMAScript `ToBoolean` on a Number: `0`, `-0` and `NaN` are falsy. -/
def JsNumber.toBoolean : JsNumber → Bool
  | .finite x => decide (x ≠ 0)
  | .negZero => false
  | .nan => false
  | .posInf => true
  | .negInf => true

/-- ECMAScript `ToBoolean`. -/
def JsValue.toBoolean : JsValue → Bool
  | .undefined => false
  | .null => false
  | .bool b => b
  | .number x => x.toBoolean
  | .string s => decide (s ≠ "")
  | .array _ => true
  | .object _ => true

/-- Property read `v.key` for a property name that no built-in prototype defines (`status`,
`response`, `error` are the names read in this program): an own property of an object if it
has one, `undefined` on every other value, and a `TypeError` on `null` and `undefined`. -/
def JsValue.getProp (h : Host) (v : JsValue) (key : String) : Except JsError JsValue :=
  match v with
  | .undefined => .error { name := "TypeError", message := h.nullReadMessage key }
  | .null => .error { name := "TypeError", message := h.nullReadMessage key }
  | .object props => .ok ((props.lookup key).getD .undefined)
  | _ => .ok .undefined

/-- Whether `key` is one of the own property names of a property list. -/
def hasOwn (key : String) (props : List (String × JsValue)) : Bool :=
  props.any (fun p => p.1 == key)

/-- Join already converted array elements with `sep` (`Array.prototype.join`). -/
def joinWith (sep : String) : List String → String
  | [] => ""
  | [x] => x
  | x :: y :: rest => x ++ sep ++ joinWith sep (y :: rest)

mutual
/-- ECMAScript `ToString`, as applied by a template literal `${v}`.  A plain object prints as
`[object Object]` unless an own (hence non-callable) `toString` property shadows
`Object.prototype.toString`, in which case `OrdinaryToPrimitive` throws; an array prints its
elements joined by commas, `null` and `undefined` elements printing as the empty string. -/
def JsValue.toStringJs (h : Host) : JsValue → Except JsError String
  | .undefined => .ok "undefined"
  | .null => .ok "null"
  | .bool true => .ok "true"
  | .bool false => .ok "false"
  | .number x => .ok (h.numberToString x)
  | .string s => .ok s
  | .array items =>
    match JsValue.elementStrings h items with
    | .ok parts => .ok (joinWith "," parts)
    | .error e => .error e
  | .object props =>
    if hasOwn "toString" props then
      .error { name := "TypeError", message := h.toPrimitiveMessage }
    else .ok "[object Object]"
/-- The strings `Array.prototype.join` produces for the elements of an array, left to right. -/
def JsValue.elementStrings (h : Host) : List JsValue → Except JsError (List String)
  | [] => .ok []
  | v :: rest =>
    let first : Except JsError String :=
      match v with
      | .undefined => .ok ""
      | .null => .ok ""
      | w => JsValue.toStringJs h w
    match first with
    | .error e => .error e
    | .ok x =>
      match JsValue.elementStrings h rest with
      | .ok xs => .ok (x :: xs)
      | .error e => .error e
end

/-- Strict equality `v === "text"` against a string literal. -/
def JsValue.strictEqString (v : JsValue) (text : String) : Bool :=
  match v with
  | .string s => s == text
  | _ => false

/-! ## Strings: `String.prototype.trim` -/

/-- ECMAScript `WhiteSpace` and `LineTerminator` code points, the ones `trim` strips. -/
def isJsWhiteSpace (c : Char) : Bool :=
  c.val ∈ [0x0009, 0x000A, 0x000B, 0x000C, 0x000D, 0x0020, 0x00A0, 0x1680,
    0x2000, 0x2001, 0x2002, 0x2003, 0x2004, 0x2005, 0x2006, 0x2007, 0x2008, 0x2009, 0x200A,
    0x2028, 0x2029, 0x202F, 0x205F, 0x3000, 0xFEFF]

/-- The method `String.prototype.trim`: strip white space from both ends. -/
def jsTrim (s : String) : String :=
  String.mk ((s.data.dropWhile isJsWhiteSpace).reverse.dropWhile isJsWhiteSpace).reverse

/-! ## Component state -/

/-- One element of `telemetryData`.  `time` is the locale time label; the three measurements
are binary64 values; `errors` is the integer `Math.floor` returned. -/
structure TelemetrySample where
  time : String
  apiLatency : ℚ
  lambdaDuration : ℚ
  dynamoRead : ℚ
  errors : Int

/-- One element of `alarms`.  `service`, `metric` and `severity` are the properties spread
from the chosen catalog entry (`none`: the entry was `undefined`, nothing was spread).
`timestamp` is the ISO-8601 string written by `toISOString`, represented by the instant (ms
since the epoch) it denotes: `new Date(x.toISOString()).getTime() = x.getTime()` for every
valid date (ECMA-262, Date.prototype.toISOString). -/
structure Alarm where
  id : String
  service : Option String
  metric : Option String
  severity : Option String
  timestamp : Int
  value : ℚ

/-- One element of `correlations`; `confidence` is the string `toFixed(1)` returned. -/
structure Correlation where
  id : Nat
  pattern : String
  confidence : String
  occurrences : Int
  lastSeen : String

/-- The eight `useState` cells of the component. -/
structure State where
  activeTab : String
  query : String
  aiResponse : JsValue
  isProcessing : Bool
  backendStatus : String
  telemetryData : List TelemetrySample
  alarms : List Alarm
  correlations : List Correlation

/-- The initial values passed to `useState`. -/
def State.initial : State :=
  { activeTab := "dashboard", query := "", aiResponse := .string "", isProcessing := false,
    backendStatus := "checking", telemetryData := [], alarms := [], correlations := [] }

/-- The constant `API_BASE_URL`. -/
def API_BASE_URL : String := "http://localhost:8080/api/v1"

/-! ## The network -/

/-- A call of `fetch(url, init)`; `body` is the value handed to `JSON.stringify`. -/
structure Request where
  url : String
  method : String
  headers : List (String × String)
  body : Option JsValue

/-- How `await response.json()` settles: with the parsed value, or rejected (unparsable
body, aborted stream). -/
inductive BodyResult where
  | parsed (v : JsValue)
  | malformed (err : JsError)

/-- How `await fetch(...)` settles: rejected (unreachable, timeout, CORS), or resolved with a
response whose `ok` flag tells an HTTP 2xx status. -/
inductive FetchOutcome where
  | rejected (err : JsError)
  | response (ok : Bool) (body : BodyResult)

/-- Evaluation of `await response.json()`. -/
def BodyResult.json : BodyResult → Except JsError JsValue
  | .parsed v => .ok v
  | .malformed err => .error err

/-- How a block of statements ends: normally, or by a throw; in both cases with the component
state reached at that point. -/
inductive Completion where
  | normal (s : State)
  | throws (err : JsError) (s : State)

/-- The state a completion carries. -/
def Completion.state : Completion → State
  | .normal s => s
  | .throws _ s => s

/-- Statement `try B catch (error) H`. -/
def jsTryCatch (body : Completion) (handler : JsError → State → Completion) : Completion :=
  match body with
  | .normal s => .normal s
  | .throws err s => handler err s

/-- Statement `try ... finally F`, for a finaliser `F` that only updates the state. -/
def jsFinally (body : Completion) (fin : State → State) : Completion :=
  match body with
  | .normal s => .normal (fin s)
  | .throws err s => .throws err (fin s)

/-! ## HealthMonitor: `checkBackendHealth` -/

/-- The request `checkBackendHealth` issues. -/
def healthRequest : Request :=
  { url := API_BASE_URL ++ "/health", method := "GET",
    headers := [("Content-Type", "application/json")], body := none }

/-- The `try` block of `checkBackendHealth`, from the point where `fetch` has settled. -/
def healthTry (h : Host) (net : FetchOutcome) (s : State) : Completion :=
  match net with
  | .rejected err => .throws err s
  | .response true body =>
    match body.json with
    | .error err => .throws err s
    | .ok data =>
      match data.getProp h "status" with
      | .error err => .throws err s
      | .ok status =>
        .normal { s with
          backendStatus := if status.strictEqString "UP" then "connected" else "error" }
  | .response false _ => .normal { s with backendStatus := "error" }

/-- The function `checkBackendHealth` from the point where `fetch` has settled
(`try`/`catch`), run on the state `s` present at that time. -/
def checkBackendHealth_settle (h : Host) (net : FetchOutcome) (s : State) : Completion :=
  jsTryCatch (healthTry h net s) (fun _ s1 => .normal { s1 with backendStatus := "disconnected" })

/-! ## QueryChannel: `handleAIQuery` -/

/-- The request `handleAIQuery` issues for the query text `q`. -/
def queryRequest (q : String) : Request :=
  { url := API_BASE_URL ++ "/query", method := "POST",
    headers := [("Content-Type", "application/json")],
    body := some (.object [("query", .string q)]) }

/-- The text set by the `catch` block of `handleAIQuery` for an error with message `m`. -/
def connectionErrorText (m : String) : String :=
  "Backend Connection Error\n\nThe Java Spring Boot backend is not available. Please ensure:\n\n1. The backend service is running on "
    ++ API_BASE_URL
    ++ "\n2. CORS is properly configured\n3. The health check endpoint is accessible\n\nError: "
    ++ m

/-- The state and the request after the synchronous part of an accepted `handleAIQuery`. -/
structure Started where
  state : State
  request : Request

/-- The part of `handleAIQuery` before its first `await`: `none` when the guard
`if (!query.trim()) return;` returns, otherwise the two state updates and the `fetch` call. -/
def handleAIQuery_begin (s : State) : Option Started :=
  if !(JsValue.string (jsTrim s.query)).toBoolean then none
  else some { state := { s with isProcessing := true, aiResponse := .string "" },
              request := queryRequest s.query }

/-- The `try` block of `handleAIQuery`, from the point where `fetch` has settled. -/
def queryTry (h : Host) (net : FetchOutcome) (s : State) : Completion :=
  match net with
  | .rejected err => .throws err s
  | .response true body =>
    match body.json with
    | .error err => .throws err s
    | .ok data =>
      match data.getProp h "response" with
      | .error err => .throws err s
      | .ok r => .normal { s with aiResponse := r }
  | .response false body =>
    match body.json with
    | .error err => .throws err s
    | .ok errorData =>
      match errorData.getProp h "error" with
      | .error err => .throws err s
      | .ok e =>
        let shown := if e.toBoolean then e else JsValue.string "Failed to process query"
        match shown.toStringJs h with
        | .error err => .throws err s
        | .ok text => .normal { s with aiResponse := .string ("Error: " ++ text) }

/-- The part of `handleAIQuery` after `fetch` has settled (`try`/`catch`/`finally`), run on the
state `s` present at that time. -/
def handleAIQuery_settle (h : Host) (net : FetchOutcome) (s : State) : Completion :=
  jsFinally
    (jsTryCatch (queryTry h net s)
      (fun error s1 =>
        .normal { s1 with aiResponse := .string (connectionErrorText error.message) }))
    (fun s1 => { s1 with isProcessing := false })

/-- What one call of a handler did: the state it leaves, the requests it issued, and the error
that escaped it, if any. -/
structure Run where
  state : State
  requests : List Request
  escaped : Option JsError

/-- The error a completion throws, if any. -/
def Completion.escaped : Completion → Option JsError
  | .normal _ => none
  | .throws err _ => some err

/-- One whole call of `checkBackendHealth` from state `s`, the network answering `net`, with no
other state update in between: nothing precedes the `fetch` call. -/
def checkBackendHealth (h : Host) (net : FetchOutcome) (s : State) : Run :=
  { state := (checkBackendHealth_settle h net s).state, requests := [healthRequest],
    escaped := (checkBackendHealth_settle h net s).escaped }

/-- One whole call of `handleAIQuery` from state `s`, the network answering `net`, with no other
state update in between. -/
def handleAIQuery (h : Host) (net : FetchOutcome) (s : State) : Run :=
  match handleAIQuery_begin s with
  | none => { state := s, requests := [], escaped := none }
  | some st =>
    { state := (handleAIQuery_settle h net st.state).state, requests := [st.request],
      escaped := (handleAIQuery_settle h net st.state).escaped }

/-- The input's `onKeyPress={(e) => e.key === 'Enter' && handleAIQuery()}`. -/
def queryInput_onKeyPress (h : Host) (net : FetchOutcome) (key : String) (s : State) : Run :=
  if key == "Enter" then handleAIQuery h net s
  else { state := s, requests := [], escaped := none }

/-- The Query button, `onClick={handleAIQuery} disabled={isProcessing}`: a disabled button
dispatches no click event. -/
def queryButton_onClick (h : Host) (net : FetchOutcome) (s : State) : Run :=
  if s.isProcessing then { state := s, requests := [], escaped := none }
  else handleAIQuery h net s

/-! ## Numbers: IEEE-754 binary64 arithmetic

A finite binary64 value is represented by the rational it denotes.  `roundDouble` is the
rounding every arithmetic operator applies to its exact result (round to nearest, ties to
even), with gradual underflow; overflow to an infinity is not represented: no operation of this
program leaves the range of the integers below `2^53`. -/

/-- The exponent of the binade of `x`, clamped at the subnormal exponent. -/
def binade (x : ℚ) : ℤ := if x = 0 then -1022 else max (Int.log 2 |x|) (-1022)

/-- The spacing of binary64 values around `x` (unit in the last place). -/
def ulp (x : ℚ) : ℚ := (2 : ℚ) ^ (binade x - 52)

/-- The integer nearest to `y`, a tie going to the even neighbour. -/
def roundHalfEven (y : ℚ) : ℤ :=
  if y - ⌊y⌋ < 1 / 2 then ⌊y⌋
  else if 1 / 2 < y - ⌊y⌋ then ⌊y⌋ + 1
  else if ⌊y⌋ % 2 = 0 then ⌊y⌋ else ⌊y⌋ + 1

/-- The binary64 value nearest to `x`, ties to even. -/
def roundDouble (x : ℚ) : ℚ := (roundHalfEven (x / ulp x) : ℚ) * ulp x

/-- The rational `x` is (the value of) a binary64 number. -/
def isDouble (x : ℚ) : Prop := roundDouble x = x

instance (x : ℚ) : Decidable (isDouble x) := by unfold isDouble; infer_instance

/-- A value `Math.random()` may return: a binary64 number in `[0, 1)`. -/
def isRandomDraw (r : ℚ) : Prop := 0 ≤ r ∧ r < 1 ∧ isDouble r

/-- The Number operator `a * b`. -/
def mulD (a b : ℚ) : ℚ := roundDouble (a * b)

/-- The Number operator `a + b`. -/
def addD (a b : ℚ) : ℚ := roundDouble (a + b)

/-- The Number operator `a - b`. -/
def subD (a b : ℚ) : ℚ := roundDouble (a - b)

/-- The largest binary64 number below one. -/
def topDraw : ℚ := 1 - (2 : ℚ) ^ (-53 : ℤ)

/-! ## Dates -/

/-- The largest magnitude of a time value, `8.64e15` ms. -/
def maxTimeValue : Int := 8640000000000000

/-- ECMAScript `ToIntegerOrInfinity` on a finite number: truncation toward zero. -/
def truncate (x : ℚ) : Int := if 0 ≤ x then ⌊x⌋ else ⌈x⌉

/-- The time value of `new Date(x)` for a finite number `x` (`TimeClip`); `none` is the
invalid date. -/
def newDate (x : ℚ) : Option Int :=
  if |x| ≤ (maxTimeValue : ℚ) then some (truncate x) else none

/-- The method `Date.prototype.toLocaleTimeString()`; an invalid date prints as such. -/
def dateToLocaleTimeString (h : Host) : Option Int → String
  | some t => h.toLocaleTimeString t
  | none => "Invalid Date"

/-- The method `Date.prototype.toLocaleString()`; an invalid date prints as such. -/
def dateToLocaleString (h : Host) : Option Int → String
  | some t => h.toLocaleString t
  | none => "Invalid Date"

/-- The method `Date.prototype.toISOString()`, the string being represented by the instant it
denotes; an invalid date throws a `RangeError`. -/
def dateToISOString (h : Host) : Option Int → Except JsError Int
  | some t => .ok t
  | none => .error { name := "RangeError", message := h.invalidTimeMessage }

/-- The call `Array.from({ length: n }, (_, i) => f i)` for a callback that may throw: the
elements in index order, or the first error thrown. -/
def mapThrow {α : Type} (f : Nat → Except JsError α) : List Nat → Except JsError (List α)
  | [] => .ok []
  | i :: rest =>
    match f i with
    | .error e => .error e
    | .ok a =>
      match mapThrow f rest with
      | .error e => .error e
      | .ok others => .ok (a :: others)

/-! ## TelemetryFeed: `generateTelemetryData` -/

/-- The date `new Date(now - (19 - i) * 60000)` of sample `i`. -/
def telemetryInstant (now : Int) (i : Nat) : Option Int :=
  newDate (subD now (mulD (subD 19 i) 60000))

/-- The callback `(_, i) => (...)` of `generateTelemetryData`; `random k` is the value of the
`k`-th call of `Math.random()` in this refresh (four calls per sample, in source order). -/
def telemetrySample (h : Host) (now : Int) (random : Nat → ℚ) (i : Nat) : TelemetrySample :=
  { time := dateToLocaleTimeString h (telemetryInstant now i),
    apiLatency := addD (mulD (random (4 * i)) 100) 50,
    lambdaDuration := addD (mulD (random (4 * i + 1)) 500) 200,
    dynamoRead := addD (mulD (random (4 * i + 2)) 1000) 500,
    errors := ⌊mulD (random (4 * i + 3)) 10⌋ }

/-- The function `generateTelemetryData`, `now` being the value of its `Date.now()`. -/
def generateTelemetryData (h : Host) (now : Int) (random : Nat → ℚ) (s : State) : State :=
  { s with telemetryData := (List.range 20).map (telemetrySample h now random) }

/-! ## AlarmFeed: `generateAlarms` -/

/-- An entry of the catalog `alarmTypes`. -/
structure AlarmType where
  service : String
  metric : String
  severity : String

/-- The constant `alarmTypes`. -/
def alarmTypes : List AlarmType :=
  [ { service := "api-gateway", metric := "High Latency", severity := "WARNING" },
    { service := "lambda-processor", metric := "Error Rate Spike", severity := "CRITICAL" },
    { service := "dynamodb-table", metric := "Throttling", severity := "WARNING" },
    { service := "ecs-service", metric := "CPU Threshold", severity := "INFO" },
    { service := "kinesis-stream", metric := "Shard Saturation", severity := "CRITICAL" } ]

/-- The element read `alarmTypes[n]` for an integral number `n`: `undefined` (`none`) outside
the index range. -/
def alarmTypeAt (n : Int) : Option AlarmType :=
  if 0 ≤ n then alarmTypes[n.toNat]? else none

/-- The callback `(_, i) => (...)` of `generateAlarms`; `clock k` is the value of the `k`-th
call of `Date.now()` in this refresh (two per alarm) and `random k` that of the `k`-th call of
`Math.random()` (three per alarm), in source order. -/
def newAlarm (h : Host) (clock : Nat → Int) (random : Nat → ℚ) (i : Nat) :
    Except JsError Alarm :=
  let alarm := alarmTypeAt ⌊mulD (random (3 * i)) (alarmTypes.length : ℚ)⌋
  let date := newDate (subD (clock (2 * i + 1)) (mulD (random (3 * i + 1)) 3600000))
  match dateToISOString h date with
  | .error e => .error e
  | .ok timestamp =>
    .ok { id := "alarm-" ++ toString (clock (2 * i)) ++ "-" ++ toString i,
          service := alarm.map (·.service),
          metric := alarm.map (·.metric),
          severity := alarm.map (·.severity),
          timestamp := timestamp,
          value := mulD (random (3 * i + 2)) 100 }

/-- The comparator `(a, b) => new Date(b.timestamp) - new Date(a.timestamp)`. -/
def compareAlarms (a b : Alarm) : ℚ := subD b.timestamp a.timestamp

/-- The order the comparator asks for: `a` may stand before `b` when the comparator is not
positive. -/
def alarmOrder (a b : Alarm) : Prop := compareAlarms a b ≤ 0

instance : DecidableRel alarmOrder := fun a b => by unfold alarmOrder; infer_instance

/-- The call `.sort(compareAlarms)`.  `Array.prototype.sort` is stable and, for a consistent
comparator, returns the elements in the order the comparator asks for; the stable insertion sort
computes that same array. -/
def sortAlarms (l : List Alarm) : List Alarm := l.insertionSort alarmOrder

/-- The five alarms `Array.from` builds, before sorting. -/
def generatedAlarms (h : Host) (clock : Nat → Int) (random : Nat → ℚ) :
    Except JsError (List Alarm) :=
  mapThrow (newAlarm h clock random) (List.range 5)

/-- The function `generateAlarms`. -/
def generateAlarms (h : Host) (clock : Nat → Int) (random : Nat → ℚ) (s : State) :
    Completion :=
  match generatedAlarms h clock random with
  | .error e => .throws e s
  | .ok newAlarms => .normal { s with alarms := sortAlarms newAlarms }

/-! ## CorrelationFeed: the correlations effect -/

/-- The constant `correlationPatterns`. -/
def correlationPatterns : List String :=
  [ "Lambda cold starts correlated with API latency spikes",
    "DynamoDB throttling events preceding error rate increase",
    "ECS memory pressure during peak traffic hours",
    "Kinesis lag causing downstream Lambda timeouts" ]

/-- The digits `toFixed(1)` prints for the integer `n` of tenths: the decimal representation
of `n`, padded to two digits, with a point before the last digit. -/
def tenthsText (n : Nat) : String := toString (n / 10) ++ "." ++ toString (n % 10)

/-- The method `Number.prototype.toFixed(1)` on a finite number: the integer `n` of tenths
nearest to `|x|`, the larger one on a tie, printed with one decimal and the sign of `x`;
magnitudes from `10^21` on print as `ToString` does. -/
def toFixed1 (h : Host) (x : ℚ) : String :=
  if (10 : ℚ) ^ 21 ≤ |x| then h.numberToString (.finite x)
  else (if x < 0 then "-" else "") ++ tenthsText ⌊|x| * 10 + 1 / 2⌋.toNat

/-- The callback `(pattern, i) => (...)` of the correlations effect; `clock k` and `random k`
are the `k`-th calls of `Date.now()` (one per finding) and `Math.random()` (three per finding). -/
def newCorrelation (h : Host) (clock : Nat → Int) (random : Nat → ℚ) (i : Nat)
    (pattern : String) : Correlation :=
  { id := i,
    pattern := pattern,
    confidence := toFixed1 h (addD (mulD (random (3 * i)) 30) 70),
    occurrences := ⌊addD (mulD (random (3 * i + 1)) 20) 5⌋,
    lastSeen :=
      dateToLocaleString h (newDate (subD (clock i) (mulD (random (3 * i + 2)) 7200000))) }

/-- The body of the correlations effect: `correlationPatterns.map(...)` stored with
`setCorrelations`. -/
def computeCorrelations (h : Host) (clock : Nat → Int) (random : Nat → ℚ) (s : State) : State :=
  { s with correlations :=
      correlationPatterns.enum.map (fun p => newCorrelation h clock random p.1 p.2) }

/-- A state with a request in flight: the query tab is shown, the query text is set,
`isProcessing` is true and the response area has been cleared by the submit that is still
pending. -/
def State.busy : State :=
  { State.initial with activeTab := "ai-query", query := "top alarms", isProcessing := true }

/-- A state ready for a submit: the query tab is shown, the query text is set and nothing is
in flight. -/
def State.ready : State :=
  { State.initial with activeTab := "ai-query", query := "top alarms" }

/-- The states that follow `s` through a sequence of settled health probes. -/
def probeAll (h : Host) (nets : List FetchOutcome) (s : State) : State :=
  nets.foldl (fun acc net => (checkBackendHealth h net acc).state) s

/-- A host used to run the model on concrete inputs: fixed texts for the host-defined parts. -/
def Host.fixture : Host :=
  { numberToString := fun _ => "0",
    nullReadMessage := fun key => "Cannot read properties of null (reading " ++ key ++ ")",
    toPrimitiveMessage := "Cannot convert object to primitive value",
    toLocaleTimeString := fun t => toString t,
    toLocaleString := fun t => toString t,
    invalidTimeMessage := "Invalid time value" }

/-! # Theorems -/

/-! ## Lemmas on `trim` -/

theorem dropWhile_nil_of_all {p : Char → Bool} {l : List Char} (hl : ∀ c ∈ l, p c = true) :
    l.dropWhile p = [] := by
  rw [List.dropWhile_eq_nil_iff]
  exact hl

theorem dropWhile_keeps_witness {p : Char → Bool} {l : List Char}
    (hl : ∃ c ∈ l, p c = false) : ∃ c ∈ l.dropWhile p, p c = false := by
  induction l with
  | nil => simp at hl
  | cons a t ih =>
    by_cases ha : p a = true
    · rcases hl with ⟨c, hc, hpc⟩
      have hct : c ∈ t := by
        rcases List.mem_cons.mp hc with rfl | h
        · rw [ha] at hpc; cases hpc
        · exact h
      simpa [List.dropWhile_cons, ha] using ih ⟨c, hct, hpc⟩
    · have ha2 : p a = false := by simpa using ha
      exact ⟨a, by simp [List.dropWhile_cons, ha2], ha2⟩

theorem jsTrim_of_blank {q : String} (hq : ∀ c ∈ q.data, isJsWhiteSpace c = true) :
    jsTrim q = "" := by
  unfold jsTrim
  rw [dropWhile_nil_of_all hq]
  rfl

theorem jsTrim_of_nonblank {q : String} (hq : ∃ c ∈ q.data, isJsWhiteSpace c = false) :
    jsTrim q ≠ "" := by
  unfold jsTrim
  obtain ⟨c, hc, hpc⟩ := dropWhile_keeps_witness hq
  have h2 : ∃ d ∈ (q.data.dropWhile isJsWhiteSpace).reverse, isJsWhiteSpace d = false :=
    ⟨c, List.mem_reverse.mpr hc, hpc⟩
  obtain ⟨d, hd, _⟩ := dropWhile_keeps_witness h2
  intro hcontra
  have hdata := congrArg String.data hcontra
  simp only [List.reverse_eq_nil_iff] at hdata
  have : ((q.data.dropWhile isJsWhiteSpace).reverse.dropWhile isJsWhiteSpace) = [] := by
    simpa using hdata
  rw [this] at hd
  simp at hd

/-- The guard of `handleAIQuery` returns exactly on a blank query. -/
theorem handleAIQuery_begin_of_blank {s : State}
    (hq : ∀ c ∈ s.query.data, isJsWhiteSpace c = true) : handleAIQuery_begin s = none := by
  simp [handleAIQuery_begin, JsValue.toBoolean, jsTrim_of_blank hq]

theorem handleAIQuery_begin_of_nonblank {s : State}
    (hq : ∃ c ∈ s.query.data, isJsWhiteSpace c = false) :
    handleAIQuery_begin s =
      some { state := { s with isProcessing := true, aiResponse := .string "" },
             request := queryRequest s.query } := by
  simp [handleAIQuery_begin, JsValue.toBoolean, jsTrim_of_nonblank hq]

/-! ## QueryChannel -/

/-- The Query button is inert while a request is in flight (the sibling path of C1). -/
theorem queryButton_onClick_of_processing (h : Host) (net : FetchOutcome) (s : State)
    (hp : s.isProcessing = true) :
    queryButton_onClick h net s = { state := s, requests := [], escaped := none } := by
  simp [queryButton_onClick, hp]

/-- C1 (code evaluated at the failing input): in the state `State.busy`, where `isProcessing`
is true, pressing Enter in the query input runs `handleAIQuery` all the same: one POST to the
query endpoint is issued and, once it settles with HTTP 200 and body `response: "42 alarms
found"`, `isProcessing` is false and `aiResponse` is the new answer; the call was not a
no-op. -/
theorem C1_enter_while_processing_submits :
    State.busy.isProcessing = true ∧
    (queryInput_onKeyPress Host.fixture
        (.response true (.parsed (.object [("response", .string "42 alarms found")])))
        "Enter" State.busy).requests = [queryRequest "top alarms"] ∧
    (queryInput_onKeyPress Host.fixture
        (.response true (.parsed (.object [("response", .string "42 alarms found")])))
        "Enter" State.busy).state.isProcessing = false ∧
    (queryInput_onKeyPress Host.fixture
        (.response true (.parsed (.object [("response", .string "42 alarms found")])))
        "Enter" State.busy).state.aiResponse = .string "42 alarms found" := by
  have hq : ∃ c ∈ State.busy.query.data, isJsWhiteSpace c = false :=
    ⟨'t', by simp [State.busy, State.initial], by decide⟩
  have hb := handleAIQuery_begin_of_nonblank hq
  refine ⟨rfl, ?_, ?_, ?_⟩
  · simp [queryInput_onKeyPress, handleAIQuery, hb]
    rfl
  · simp [queryInput_onKeyPress, handleAIQuery, hb, handleAIQuery_settle, jsFinally, jsTryCatch,
      queryTry, BodyResult.json, JsValue.getProp, Completion.state, List.lookup]
  · simp [queryInput_onKeyPress, handleAIQuery, hb, handleAIQuery_settle, jsFinally, jsTryCatch,
      queryTry, BodyResult.json, JsValue.getProp, Completion.state, List.lookup]

/-- C2: for a query text that is empty or all white space, `handleAIQuery` issues no request
and leaves every state field as it was, whatever the network would have answered; the same
holds through the Enter key and through the Query button. -/
theorem C2_blank_query_is_noop (h : Host) (net : FetchOutcome) (s : State)
    (hq : ∀ c ∈ s.query.data, isJsWhiteSpace c = true) :
    handleAIQuery h net s = { state := s, requests := [], escaped := none } ∧
    handleAIQuery_begin s = none ∧
    (∀ key, queryInput_onKeyPress h net key s = { state := s, requests := [], escaped := none }) ∧
    queryButton_onClick h net s = { state := s, requests := [], escaped := none } := by
  have hb := handleAIQuery_begin_of_blank hq
  have hrun : handleAIQuery h net s = { state := s, requests := [], escaped := none } := by
    simp [handleAIQuery, hb]
  refine ⟨hrun, hb, ?_, ?_⟩
  · intro key
    by_cases hk : (key == "Enter") = true <;> simp [queryInput_onKeyPress, hk, hrun]
  · by_cases hp : s.isProcessing = true <;> simp [queryButton_onClick, hp, hrun]

/-- Scenario C of the specification: `submit(" ")` from the initial state. -/
theorem C2_blank_query_is_noop_witness :
    (∀ c ∈ ({ State.initial with query := " " } : State).query.data, isJsWhiteSpace c = true) ∧
    handleAIQuery Host.fixture (.rejected { name := "TypeError", message := "Failed to fetch" })
      { State.initial with query := " " } =
      { state := { State.initial with query := " " }, requests := [], escaped := none } :=
  ⟨by decide,
   (C2_blank_query_is_noop Host.fixture
      (.rejected { name := "TypeError", message := "Failed to fetch" })
      { State.initial with query := " " } (by decide)).1⟩

/-- The settle phase of `handleAIQuery` always ends normally with `isProcessing = false`. -/
theorem handleAIQuery_settle_isProcessing (h : Host) (net : FetchOutcome) (s : State) :
    (handleAIQuery_settle h net s).state.isProcessing = false ∧
    (handleAIQuery_settle h net s).escaped = none := by
  unfold handleAIQuery_settle
  cases hq : queryTry h net s <;> simp [jsFinally, jsTryCatch, Completion.state, Completion.escaped]

/-- C3: for a submit with a non-blank query text and every outcome of the request (rejected
fetch, HTTP success or non-success, parsable or unparsable body of any shape), the state after
the call has settled has `isProcessing = false`, and no error escapes the handler.  The same
holds for the settle phase on whatever state is present when the response arrives. -/
theorem C3_isProcessing_reset_on_every_path (h : Host) (net : FetchOutcome) (s : State)
    (hq : ∃ c ∈ s.query.data, isJsWhiteSpace c = false) :
    (handleAIQuery h net s).state.isProcessing = false ∧
    (handleAIQuery h net s).escaped = none ∧
    (handleAIQuery h net s).requests = [queryRequest s.query] ∧
    ∀ later : State, (handleAIQuery_settle h net later).state.isProcessing = false := by
  refine ⟨?_, ?_, ?_, fun later => (handleAIQuery_settle_isProcessing h net later).1⟩
  · simp [handleAIQuery, handleAIQuery_begin_of_nonblank hq,
      (handleAIQuery_settle_isProcessing h net _).1]
  · simp [handleAIQuery, handleAIQuery_begin_of_nonblank hq,
      (handleAIQuery_settle_isProcessing h net _).2]
  · simp [handleAIQuery, handleAIQuery_begin_of_nonblank hq]

/-- A transport failure after an accepted submit. -/
theorem C3_isProcessing_reset_on_every_path_witness :
    (∃ c ∈ State.ready.query.data, isJsWhiteSpace c = false) ∧
    (handleAIQuery Host.fixture (.rejected { name := "TypeError", message := "Failed to fetch" })
      State.ready).state.isProcessing = false :=
  ⟨⟨'t', by simp [State.ready, State.initial], by decide⟩,
   (C3_isProcessing_reset_on_every_path Host.fixture
      (.rejected { name := "TypeError", message := "Failed to fetch" }) State.ready
      ⟨'t', by simp [State.ready, State.initial], by decide⟩).1⟩

/-- A property read succeeds on every value other than `null` and `undefined`. -/
theorem getProp_ok_of_ne (h : Host) (data : JsValue) (key : String)
    (h1 : data ≠ .null) (h2 : data ≠ .undefined) : ∃ v, data.getProp h key = .ok v := by
  cases data with
  | undefined => exact absurd rfl h2
  | null => exact absurd rfl h1
  | bool b => exact ⟨_, rfl⟩
  | number x => exact ⟨_, rfl⟩
  | string t => exact ⟨_, rfl⟩
  | array items => exact ⟨_, rfl⟩
  | object props => exact ⟨_, rfl⟩

/-- A value other than an object, `null` and `undefined` has none of the properties read. -/
theorem getProp_undefined_of_not_object (h : Host) (data : JsValue) (key : String)
    (h1 : data ≠ .null) (h2 : data ≠ .undefined) (h3 : ∀ props, data ≠ .object props) :
    data.getProp h key = .ok .undefined := by
  cases data with
  | undefined => exact absurd rfl h2
  | null => exact absurd rfl h1
  | bool b => rfl
  | number x => rfl
  | string t => rfl
  | array items => rfl
  | object props => exact absurd rfl (h3 props)

/-- Only the string itself is strictly equal to a string literal. -/
theorem eq_string_of_strictEqString {v : JsValue} {text : String}
    (hv : v.strictEqString text = true) : v = .string text := by
  cases v with
  | string t =>
    have : t = text := by simpa [JsValue.strictEqString] using hv
    rw [this]
  | undefined => simp [JsValue.strictEqString] at hv
  | null => simp [JsValue.strictEqString] at hv
  | bool b => simp [JsValue.strictEqString] at hv
  | number x => simp [JsValue.strictEqString] at hv
  | array items => simp [JsValue.strictEqString] at hv
  | object props => simp [JsValue.strictEqString] at hv

set_option maxRecDepth 20000 in
/-- The diagnostic text starts with a `B`, an application error text with an `E`. -/
theorem connectionErrorText_ne_error (m e : String) : connectionErrorText m ≠ "Error: " ++ e := by
  intro hcontra
  have hd := congrArg (fun t : String => t.data.head?) hcontra
  simp only [connectionErrorText, String.data_append, List.append_assoc, List.cons_append,
    List.head?_cons, Option.some.injEq] at hd
  exact absurd hd (by decide)

/-- The settle phase when the `try` block completes normally. -/
theorem run_of_queryTry_normal (h : Host) (net : FetchOutcome) (s : State) (s2 : State)
    (hq : ∃ c ∈ s.query.data, isJsWhiteSpace c = false)
    (ht : queryTry h net { s with isProcessing := true, aiResponse := .string "" } = .normal s2) :
    (handleAIQuery h net s).state.aiResponse = s2.aiResponse := by
  simp [handleAIQuery, handleAIQuery_begin_of_nonblank hq, handleAIQuery_settle, ht, jsFinally,
    jsTryCatch, Completion.state]

/-- The settle phase when the `try` block throws. -/
theorem run_of_queryTry_throws (h : Host) (net : FetchOutcome) (s : State) (err : JsError)
    (s2 : State) (hq : ∃ c ∈ s.query.data, isJsWhiteSpace c = false)
    (ht : queryTry h net { s with isProcessing := true, aiResponse := .string "" } =
      .throws err s2) :
    (handleAIQuery h net s).state.aiResponse = .string (connectionErrorText err.message) := by
  simp [handleAIQuery, handleAIQuery_begin_of_nonblank hq, handleAIQuery_settle, ht, jsFinally,
    jsTryCatch, Completion.state]

/-- C4 (the claim fails for an empty error field and for a `null` body): after an accepted
submit answered with HTTP non-success and body `error: ""`, the response text is the generic
`Error: Failed to process query`, not `"Error: "` followed by the (empty) field; and answered
with HTTP non-success and the parsable body `null`, which has no `error` field, the field read
throws and the response text is the connection diagnostic, not the generic application
error. -/
theorem C4_empty_error_field_counterexample :
    (∃ c ∈ State.ready.query.data, isJsWhiteSpace c = false) ∧
    (handleAIQuery Host.fixture (.response false (.parsed (.object [("error", .string "")])))
      State.ready).state.aiResponse = .string "Error: Failed to process query" ∧
    (handleAIQuery Host.fixture (.response false (.parsed (.object [("error", .string "")])))
      State.ready).state.aiResponse ≠ .string ("Error: " ++ "") ∧
    (handleAIQuery Host.fixture (.response false (.parsed .null)) State.ready).state.aiResponse =
      .string (connectionErrorText "Cannot read properties of null (reading error)") ∧
    (handleAIQuery Host.fixture (.response false (.parsed .null)) State.ready).state.aiResponse ≠
      .string "Error: Failed to process query" := by
  have hq : ∃ c ∈ State.ready.query.data, isJsWhiteSpace c = false :=
    ⟨'t', by simp [State.ready, State.initial], by decide⟩
  have hrun : (handleAIQuery Host.fixture
      (.response false (.parsed (.object [("error", .string "")]))) State.ready).state.aiResponse =
      .string "Error: Failed to process query" := by
    rw [run_of_queryTry_normal Host.fixture _ State.ready
      { State.ready with isProcessing := true,
                         aiResponse := .string "Error: Failed to process query" } hq]
    simp [queryTry, BodyResult.json, JsValue.getProp, List.lookup, JsValue.toBoolean,
      JsValue.toStringJs]
  have hnull : (handleAIQuery Host.fixture (.response false (.parsed .null))
      State.ready).state.aiResponse =
      .string (connectionErrorText "Cannot read properties of null (reading error)") :=
    run_of_queryTry_throws Host.fixture _ State.ready
      { name := "TypeError", message := "Cannot read properties of null (reading error)" } _ hq
      rfl
  refine ⟨hq, hrun, ?_, hnull, ?_⟩
  · rw [hrun]
    intro hcontra
    injection hcontra with hstr
    exact absurd hstr (by decide)
  · rw [hnull]
    intro hcontra
    injection hcontra with hstr
    exact connectionErrorText_ne_error _ "Failed to process query" hstr

/-- C4 (amended): for every accepted submit, (1) HTTP success with a body whose `response`
property reads `r` leaves `aiResponse = r` verbatim; (2) HTTP non-success with a body whose
`error` property reads a non-empty string `e` leaves `"Error: " ++ e`; (3) HTTP non-success with
a body whose `error` property reads a falsy value (absent, i.e. `undefined`, or the empty
string among others) leaves `Error: Failed to process query`; in particular (4) a body object
without an `error` property, (5) a body object whose `error` is the empty string, and (6) every
body that is neither an object nor `null` (a string, number, boolean or array: no `error`
field).  (7) HTTP non-success with the body `null` (or `undefined`) is not an application
error: the field read throws and the text is the connection diagnostic carrying the host's
`TypeError` message; (8) likewise for HTTP success with such a body. -/
theorem C4_response_text_by_outcome (h : Host) (s : State)
    (hq : ∃ c ∈ s.query.data, isJsWhiteSpace c = false) :
    (∀ data r, data.getProp h "response" = .ok r →
      (handleAIQuery h (.response true (.parsed data)) s).state.aiResponse = r) ∧
    (∀ data e, data.getProp h "error" = .ok (.string e) → e ≠ "" →
      (handleAIQuery h (.response false (.parsed data)) s).state.aiResponse =
        .string ("Error: " ++ e)) ∧
    (∀ data e, data.getProp h "error" = .ok e → e.toBoolean = false →
      (handleAIQuery h (.response false (.parsed data)) s).state.aiResponse =
        .string "Error: Failed to process query") ∧
    (∀ props, props.lookup "error" = none →
      (handleAIQuery h (.response false (.parsed (.object props))) s).state.aiResponse =
        .string "Error: Failed to process query") ∧
    (∀ props, props.lookup "error" = some (.string "") →
      (handleAIQuery h (.response false (.parsed (.object props))) s).state.aiResponse =
        .string "Error: Failed to process query") ∧
    (∀ data, data ≠ .null → data ≠ .undefined → (∀ props, data ≠ .object props) →
      (handleAIQuery h (.response false (.parsed data)) s).state.aiResponse =
        .string "Error: Failed to process query") ∧
    (∀ data, data = .null ∨ data = .undefined →
      (handleAIQuery h (.response false (.parsed data)) s).state.aiResponse =
        .string (connectionErrorText (h.nullReadMessage "error"))) ∧
    (∀ data, data = .null ∨ data = .undefined →
      (handleAIQuery h (.response true (.parsed data)) s).state.aiResponse =
        .string (connectionErrorText (h.nullReadMessage "response"))) := by
  have hfalsy : ∀ data e, data.getProp h "error" = .ok e → e.toBoolean = false →
      (handleAIQuery h (.response false (.parsed data)) s).state.aiResponse =
        .string "Error: Failed to process query" := by
    intro data e he hf
    rw [run_of_queryTry_normal h _ s
      { s with isProcessing := true, aiResponse := .string "Error: Failed to process query" } hq]
    simp [queryTry, BodyResult.json, he, hf, JsValue.toStringJs]
  refine ⟨?_, ?_, hfalsy, ?_, ?_, ?_, ?_, ?_⟩
  · intro data r hr
    rw [run_of_queryTry_normal h _ s
      { s with isProcessing := true, aiResponse := r } hq]
    simp [queryTry, BodyResult.json, hr]
  · intro data e he hne
    rw [run_of_queryTry_normal h _ s
      { s with isProcessing := true, aiResponse := .string ("Error: " ++ e) } hq]
    simp [queryTry, BodyResult.json, he, JsValue.toBoolean, hne, JsValue.toStringJs]
  · intro props he
    exact hfalsy (.object props) .undefined (by simp [JsValue.getProp, he]) rfl
  · intro props he
    exact hfalsy (.object props) (.string "") (by simp [JsValue.getProp, he]) (by decide)
  · intro data h1 h2 h3
    exact hfalsy data .undefined (getProp_undefined_of_not_object h data "error" h1 h2 h3) rfl
  · intro data hd
    rcases hd with rfl | rfl
    · exact run_of_queryTry_throws h _ s
        { name := "TypeError", message := h.nullReadMessage "error" } _ hq rfl
    · exact run_of_queryTry_throws h _ s
        { name := "TypeError", message := h.nullReadMessage "error" } _ hq rfl
  · intro data hd
    rcases hd with rfl | rfl
    · exact run_of_queryTry_throws h _ s
        { name := "TypeError", message := h.nullReadMessage "response" } _ hq rfl
    · exact run_of_queryTry_throws h _ s
        { name := "TypeError", message := h.nullReadMessage "response" } _ hq rfl

/-- Scenarios D and E of the specification. -/
theorem C4_response_text_by_outcome_witness :
    (∃ c ∈ State.ready.query.data, isJsWhiteSpace c = false) ∧
    (handleAIQuery Host.fixture
      (.response true (.parsed (.object [("response", .string "42 alarms found")])))
      State.ready).state.aiResponse = .string "42 alarms found" ∧
    (handleAIQuery Host.fixture
      (.response false (.parsed (.object [("error", .string "LLM timeout")])))
      State.ready).state.aiResponse = .string ("Error: " ++ "LLM timeout") :=
  ⟨⟨'t', by simp [State.ready, State.initial], by decide⟩,
   (C4_response_text_by_outcome Host.fixture State.ready
      ⟨'t', by simp [State.ready, State.initial], by decide⟩).1
      (.object [("response", .string "42 alarms found")]) (.string "42 alarms found")
      (by simp [JsValue.getProp, List.lookup]),
   (C4_response_text_by_outcome Host.fixture State.ready
      ⟨'t', by simp [State.ready, State.initial], by decide⟩).2.1
      (.object [("error", .string "LLM timeout")]) "LLM timeout"
      (by simp [JsValue.getProp, List.lookup]) (by decide)⟩

/-- C5: for every accepted submit that ends in a transport failure (the `fetch` promise
rejects, or the body of a response of either HTTP class cannot be parsed) whose error carries
the message `m`, the final response text is the diagnostic `connectionErrorText m`; that text
contains the configured base URL, ends with `m`, and differs from the application-error text
`"Error: " ++ e` for every `e`, the generic fallback included. -/
theorem C5_transport_failure_text (h : Host) (s : State) (err : JsError)
    (hq : ∃ c ∈ s.query.data, isJsWhiteSpace c = false) :
    (handleAIQuery h (.rejected err) s).state.aiResponse =
      .string (connectionErrorText err.message) ∧
    (∀ ok, (handleAIQuery h (.response ok (.malformed err)) s).state.aiResponse =
      .string (connectionErrorText err.message)) ∧
    (∃ before after, connectionErrorText err.message = before ++ API_BASE_URL ++ after) ∧
    (∃ before, connectionErrorText err.message = before ++ err.message) ∧
    (∀ e, JsValue.string (connectionErrorText err.message) ≠ .string ("Error: " ++ e)) ∧
    JsValue.string (connectionErrorText err.message) ≠ .string "Error: Failed to process query" := by
  refine ⟨?_, ?_, ?_, ?_, ?_, ?_⟩
  · exact run_of_queryTry_throws h _ s err _ hq rfl
  · intro ok
    cases ok
    · exact run_of_queryTry_throws h _ s err _ hq rfl
    · exact run_of_queryTry_throws h _ s err _ hq rfl
  · exact ⟨"Backend Connection Error\n\nThe Java Spring Boot backend is not available. Please ensure:\n\n1. The backend service is running on ",
      "\n2. CORS is properly configured\n3. The health check endpoint is accessible\n\nError: "
        ++ err.message,
      by simp only [connectionErrorText, String.append_assoc]⟩
  · exact ⟨_, rfl⟩
  · intro e hcontra
    injection hcontra with hstr
    exact connectionErrorText_ne_error _ _ hstr
  · intro hcontra
    injection hcontra with hstr
    exact connectionErrorText_ne_error err.message "Failed to process query" hstr

/-- An unreachable backend after an accepted submit. -/
theorem C5_transport_failure_text_witness :
    (∃ c ∈ State.ready.query.data, isJsWhiteSpace c = false) ∧
    (handleAIQuery Host.fixture (.rejected { name := "TypeError", message := "Failed to fetch" })
      State.ready).state.aiResponse = .string (connectionErrorText "Failed to fetch") :=
  ⟨⟨'t', by simp [State.ready, State.initial], by decide⟩,
   (C5_transport_failure_text Host.fixture State.ready
      { name := "TypeError", message := "Failed to fetch" }
      ⟨'t', by simp [State.ready, State.initial], by decide⟩).1⟩

/-! ## HealthMonitor -/

/-- Every completion of `checkBackendHealth` is normal and carries one of the three settled
status values. -/
theorem checkBackendHealth_settled (h : Host) (net : FetchOutcome) (s : State) :
    (checkBackendHealth h net s).escaped = none ∧
    ((checkBackendHealth h net s).state.backendStatus = "connected" ∨
     (checkBackendHealth h net s).state.backendStatus = "disconnected" ∨
     (checkBackendHealth h net s).state.backendStatus = "error") := by
  unfold checkBackendHealth checkBackendHealth_settle healthTry
  rcases net with err | ⟨ok, body⟩
  · simp [jsTryCatch, Completion.state, Completion.escaped]
  · cases ok
    · simp [jsTryCatch, Completion.state, Completion.escaped]
    · rcases body with data | err
      · cases hg : data.getProp h "status" with
        | error e => simp [BodyResult.json, hg, jsTryCatch, Completion.state, Completion.escaped]
        | ok status =>
          by_cases hs : status.strictEqString "UP" = true <;>
            simp [BodyResult.json, hg, hs, jsTryCatch, Completion.state, Completion.escaped]
      · simp [BodyResult.json, jsTryCatch, Completion.state, Completion.escaped]

/-- C6 (the claim fails for a `null` body): an HTTP success whose parsable body is the JSON
literal `null` carries a status indicator other than `"UP"`, yet reading `data.status` throws
and the probe ends in `disconnected`, not `error`. -/
theorem C6_null_body_counterexample :
    (checkBackendHealth Host.fixture (.response true (.parsed .null))
      State.initial).state.backendStatus = "disconnected" ∧
    (checkBackendHealth Host.fixture (.response true (.parsed .null))
      State.initial).state.backendStatus ≠ "error" := by
  have hrun : (checkBackendHealth Host.fixture (.response true (.parsed .null))
      State.initial).state.backendStatus = "disconnected" := rfl
  exact ⟨hrun, by rw [hrun]; decide⟩

/-- C6 (amended): the status a health probe leaves, for every host, every state and every
outcome: (1) `connected` for an HTTP success whose parsed body has `status === "UP"`;
(2, 3) `error` for an HTTP success whose parsed body is not `null` and yields any other
`status` (absent included); (4) `error` for an HTTP non-success; (5, 6) `disconnected` when
`fetch` rejects or the body cannot be parsed; (7) `disconnected` when the parsed body is `null`
(or `undefined`), the status read throwing.  (8) Whatever the outcome, the probe ends normally
(nothing is thrown outward) with a status among `connected`, `disconnected`, `error`, hence
never `checking`; (9) and so does every non-empty sequence of probes started from the initial
`checking` state. -/
theorem C6_health_status_mapping (h : Host) (s : State) :
    (∀ data, data.getProp h "status" = .ok (.string "UP") →
      (checkBackendHealth h (.response true (.parsed data)) s).state.backendStatus = "connected") ∧
    (∀ data status, data.getProp h "status" = .ok status → status.strictEqString "UP" = false →
      (checkBackendHealth h (.response true (.parsed data)) s).state.backendStatus = "error") ∧
    (∀ data, data ≠ .null → data ≠ .undefined →
      data.getProp h "status" ≠ .ok (.string "UP") →
      (checkBackendHealth h (.response true (.parsed data)) s).state.backendStatus = "error") ∧
    (∀ body, (checkBackendHealth h (.response false body) s).state.backendStatus = "error") ∧
    (∀ err, (checkBackendHealth h (.rejected err) s).state.backendStatus = "disconnected") ∧
    (∀ err,
      (checkBackendHealth h (.response true (.malformed err)) s).state.backendStatus =
        "disconnected") ∧
    (∀ data, data = .null ∨ data = .undefined →
      (checkBackendHealth h (.response true (.parsed data)) s).state.backendStatus =
        "disconnected") ∧
    (∀ net, (checkBackendHealth h net s).escaped = none ∧
      (checkBackendHealth h net s).state.backendStatus ∈ ["connected", "disconnected", "error"] ∧
      (checkBackendHealth h net s).state.backendStatus ≠ "checking") ∧
    (∀ nets, nets ≠ [] →
      (probeAll h nets State.initial).backendStatus ∈ ["connected", "disconnected", "error"] ∧
      (probeAll h nets State.initial).backendStatus ≠ "checking") := by
  have hmem : ∀ t : String, t ∈ ["connected", "disconnected", "error"] → t ≠ "checking" := by
    intro t ht
    simp only [List.mem_cons, List.mem_singleton, List.not_mem_nil, or_false] at ht
    rcases ht with rfl | rfl | rfl <;> decide
  have hone : ∀ (net : FetchOutcome) (s1 : State),
      (checkBackendHealth h net s1).state.backendStatus ∈
        ["connected", "disconnected", "error"] := by
    intro net s1
    rcases (checkBackendHealth_settled h net s1).2 with h1 | h1 | h1 <;> simp [h1]
  have hother : ∀ data status, data.getProp h "status" = .ok status →
      status.strictEqString "UP" = false →
      (checkBackendHealth h (.response true (.parsed data)) s).state.backendStatus =
        "error" := by
    intro data status hd hs
    simp [checkBackendHealth, checkBackendHealth_settle, healthTry, BodyResult.json, hd, hs,
      jsTryCatch, Completion.state]
  refine ⟨?_, hother, ?_, ?_, ?_, ?_, ?_, ?_, ?_⟩
  · intro data hd
    simp [checkBackendHealth, checkBackendHealth_settle, healthTry, BodyResult.json, hd,
      jsTryCatch, Completion.state, JsValue.strictEqString]
  · intro data h1 h2 hne
    obtain ⟨status, hd⟩ := getProp_ok_of_ne h data "status" h1 h2
    refine hother data status hd ?_
    by_contra hs
    have hs2 : status.strictEqString "UP" = true := by simpa using hs
    rw [eq_string_of_strictEqString hs2] at hd
    exact hne hd
  · intro body
    simp [checkBackendHealth, checkBackendHealth_settle, healthTry, jsTryCatch, Completion.state]
  · intro err
    simp [checkBackendHealth, checkBackendHealth_settle, healthTry, jsTryCatch, Completion.state]
  · intro err
    simp [checkBackendHealth, checkBackendHealth_settle, healthTry, BodyResult.json, jsTryCatch,
      Completion.state]
  · intro data hd
    rcases hd with rfl | rfl <;> rfl
  · intro net
    exact ⟨(checkBackendHealth_settled h net s).1, hone net s, hmem _ (hone net s)⟩
  · intro nets hne
    have hlast : (probeAll h nets State.initial).backendStatus ∈
        ["connected", "disconnected", "error"] := by
      rcases List.eq_nil_or_concat nets with hnil | ⟨front, net, rfl⟩
      · exact absurd hnil hne
      · simp only [probeAll, List.concat_eq_append, List.foldl_append, List.foldl_cons,
          List.foldl_nil]
        exact hone net _
    exact ⟨hlast, hmem _ hlast⟩

/-- Scenarios A and B of the specification, from the initial `checking` state, and a body
without a status field. -/
theorem C6_health_status_mapping_witness :
    (checkBackendHealth Host.fixture
      (.response true (.parsed (.object [("status", .string "UP")])))
      State.initial).state.backendStatus = "connected" ∧
    (checkBackendHealth Host.fixture
      (.response true (.parsed (.object [("status", .string "DOWN")])))
      State.initial).state.backendStatus = "error" ∧
    (checkBackendHealth Host.fixture
      (.response true (.parsed (.object [])))
      State.initial).state.backendStatus = "error" ∧
    (checkBackendHealth Host.fixture
      (.rejected { name := "TypeError", message := "Failed to fetch" })
      State.initial).state.backendStatus = "disconnected" :=
  ⟨(C6_health_status_mapping Host.fixture State.initial).1
      (.object [("status", .string "UP")]) (by simp [JsValue.getProp, List.lookup]),
   (C6_health_status_mapping Host.fixture State.initial).2.1
      (.object [("status", .string "DOWN")]) (.string "DOWN")
      (by simp [JsValue.getProp, List.lookup]) (by decide),
   (C6_health_status_mapping Host.fixture State.initial).2.2.1
      (.object []) (by simp) (by simp) (by simp [JsValue.getProp, List.lookup]),
   (C6_health_status_mapping Host.fixture State.initial).2.2.2.2.1
      { name := "TypeError", message := "Failed to fetch" }⟩

/-! ## Lemmas on binary64 rounding -/

theorem ulp_pos (x : ℚ) : 0 < ulp x := by
  unfold ulp
  positivity

theorem roundHalfEven_le_of_le {y : ℚ} {n : ℤ} (h : y ≤ n) : roundHalfEven y ≤ n := by
  have hfl : ⌊y⌋ ≤ n := by
    have := Int.floor_le y
    exact_mod_cast (this.trans h)
  have hfrac : (⌊y⌋ : ℚ) ≤ y := Int.floor_le y
  unfold roundHalfEven
  rcases hfl.lt_or_eq with hlt | heq
  · split_ifs <;> omega
  · have hy : y = n := le_antisymm h (by rw [← heq]; exact hfrac)
    have : y - ⌊y⌋ < 1 / 2 := by
      rw [heq, hy]; norm_num
    rw [if_pos this]
    exact hfl

theorem le_roundHalfEven_of_le {y : ℚ} {n : ℤ} (h : (n : ℚ) ≤ y) : n ≤ roundHalfEven y := by
  have hfl : n ≤ ⌊y⌋ := Int.le_floor.mpr h
  unfold roundHalfEven
  split_ifs <;> omega

theorem roundHalfEven_le_pred {y : ℚ} {n : ℤ} (h : y < n - 1 / 2) : roundHalfEven y ≤ n - 1 := by
  have hfl : ⌊y⌋ ≤ n - 1 := by
    have h1 : y < ((n : ℤ) : ℚ) := by linarith
    have := Int.floor_lt.mpr h1
    omega
  unfold roundHalfEven
  rcases hfl.lt_or_eq with hlt | heq
  · split_ifs <;> omega
  · have : y - ⌊y⌋ < 1 / 2 := by
      rw [heq]; push_cast; linarith
    rw [if_pos this]
    exact hfl

theorem roundDouble_le_of_le {x d : ℚ} {N : ℤ} (hd : d = N * ulp x) (h : x ≤ d) :
    roundDouble x ≤ d := by
  have hu := ulp_pos x
  have hy : x / ulp x ≤ N := by
    rw [div_le_iff₀ hu, ← hd]; exact h
  have := roundHalfEven_le_of_le hy
  unfold roundDouble
  rw [hd]
  exact mul_le_mul_of_nonneg_right (by exact_mod_cast this) hu.le

theorem le_roundDouble_of_le {x d : ℚ} {N : ℤ} (hd : d = N * ulp x) (h : d ≤ x) :
    d ≤ roundDouble x := by
  have hu := ulp_pos x
  have hy : (N : ℚ) ≤ x / ulp x := by
    rw [le_div_iff₀ hu, ← hd]; exact h
  have := le_roundHalfEven_of_le hy
  unfold roundDouble
  rw [hd]
  exact mul_le_mul_of_nonneg_right (by exact_mod_cast this) hu.le

theorem binade_le_of_abs_lt {x : ℚ} {k : ℤ} (hk : -1022 ≤ k) (h : |x| < (2 : ℚ) ^ (k + 1)) :
    binade x ≤ k := by
  unfold binade
  split_ifs with h0
  · exact hk
  · apply max_le _ hk
    have hpos : 0 < |x| := abs_pos.mpr h0
    have := (Int.lt_zpow_iff_log_lt (b := 2) (by norm_num) hpos).mp (by exact_mod_cast h)
    omega

theorem binade_eq {x : ℚ} {e : ℤ} (he : -1022 ≤ e) (hlo : (2 : ℚ) ^ e ≤ |x|)
    (hhi : |x| < (2 : ℚ) ^ (e + 1)) : binade x = e := by
  have hpos : 0 < |x| := lt_of_lt_of_le (by positivity) hlo
  have h1 : e ≤ Int.log 2 |x| :=
    (Int.zpow_le_iff_le_log (b := 2) (by norm_num) hpos).mp (by exact_mod_cast hlo)
  have h2 : Int.log 2 |x| < e + 1 :=
    (Int.lt_zpow_iff_log_lt (b := 2) (by norm_num) hpos).mp (by exact_mod_cast hhi)
  unfold binade
  rw [if_neg (abs_pos.mp hpos), max_eq_left (by omega)]
  omega

/-- Every multiple of `2 ^ m` lies on the grid of `x` when `|x| < 2 ^ (m + 53)`. -/
theorem on_grid {x : ℚ} (k m : ℤ) (hm : -1074 ≤ m) (h : |x| < (2 : ℚ) ^ (m + 53)) :
    ∃ N : ℤ, (k : ℚ) * (2 : ℚ) ^ m = N * ulp x := by
  have hb : binade x ≤ m + 52 := binade_le_of_abs_lt (by omega) (by simpa [add_assoc] using h)
  refine ⟨k * 2 ^ (m + 52 - binade x).toNat, ?_⟩
  have hnat : ((m + 52 - binade x).toNat : ℤ) = m + 52 - binade x := Int.toNat_of_nonneg (by omega)
  unfold ulp
  push_cast
  rw [mul_assoc, ← zpow_natCast, hnat, ← zpow_add₀ (by norm_num : (2 : ℚ) ≠ 0)]
  congr 2
  ring

theorem int_on_grid {x : ℚ} (k : ℤ) (h : |x| < (2 : ℚ) ^ (53 : ℤ)) :
    ∃ N : ℤ, (k : ℚ) = N * ulp x := by
  obtain ⟨N, hN⟩ := on_grid (x := x) k 0 (by norm_num) (by simpa using h)
  exact ⟨N, by simpa using hN⟩

theorem roundDouble_le_int {x : ℚ} {k : ℤ} (hx : |x| < (2 : ℚ) ^ (53 : ℤ)) (h : x ≤ k) :
    roundDouble x ≤ k := by
  obtain ⟨N, hN⟩ := int_on_grid (x := x) k hx
  exact roundDouble_le_of_le hN h

theorem int_le_roundDouble {x : ℚ} {k : ℤ} (hx : |x| < (2 : ℚ) ^ (53 : ℤ)) (h : (k : ℚ) ≤ x) :
    (k : ℚ) ≤ roundDouble x := by
  obtain ⟨N, hN⟩ := int_on_grid (x := x) k hx
  exact le_roundDouble_of_le hN h

theorem roundDouble_int {k : ℤ} (hk : |(k : ℚ)| < (2 : ℚ) ^ (53 : ℤ)) :
    roundDouble (k : ℚ) = k :=
  le_antisymm (roundDouble_le_int hk le_rfl) (int_le_roundDouble hk le_rfl)

theorem roundHalfEven_of_floor_lt {y : ℚ} {f : ℤ} (h1 : (f : ℚ) ≤ y) (h2 : y < f + 1 / 2) :
    roundHalfEven y = f := by
  have hf : ⌊y⌋ = f := Int.floor_eq_iff.mpr ⟨h1, by linarith⟩
  unfold roundHalfEven
  rw [hf, if_pos (by linarith)]

theorem roundHalfEven_of_tie_odd {y : ℚ} {f : ℤ} (h : y = f + 1 / 2) (hodd : f % 2 = 1) :
    roundHalfEven y = f + 1 := by
  have hf : ⌊y⌋ = f := Int.floor_eq_iff.mpr ⟨by linarith, by linarith⟩
  unfold roundHalfEven
  rw [hf, if_neg (by linarith), if_neg (by linarith), if_neg (by omega)]

theorem roundHalfEven_intCast (n : ℤ) : roundHalfEven (n : ℚ) = n :=
  roundHalfEven_of_floor_lt le_rfl (by linarith)

theorem roundDouble_eq_of {x : ℚ} {e n : ℤ} (he : -1022 ≤ e) (hlo : (2 : ℚ) ^ e ≤ |x|)
    (hhi : |x| < (2 : ℚ) ^ (e + 1)) (hn : roundHalfEven (x / (2 : ℚ) ^ (e - 52)) = n) :
    roundDouble x = n * (2 : ℚ) ^ (e - 52) := by
  unfold roundDouble ulp
  rw [binade_eq he hlo hhi, hn]

theorem ulp_le_of_abs_lt {x : ℚ} {k : ℤ} (hk : -1022 ≤ k) (h : |x| < (2 : ℚ) ^ (k + 1)) :
    ulp x ≤ (2 : ℚ) ^ (k - 52) := by
  unfold ulp
  exact zpow_le_zpow_right₀ (by norm_num) (by have := binade_le_of_abs_lt hk h; omega)

/-- Rounding stays strictly below a grid point `K * 2^m` that the argument misses by more than
half a unit in the last place. -/
theorem roundDouble_lt_grid {x : ℚ} {K m j : ℤ} (hj : -1022 ≤ j) (hm : j - 52 ≤ m)
    (hx : |x| < (2 : ℚ) ^ (j + 1)) (hgap : x < K * (2 : ℚ) ^ m - (2 : ℚ) ^ (j - 53)) :
    roundDouble x < K * (2 : ℚ) ^ m := by
  have hu := ulp_pos x
  have hule := ulp_le_of_abs_lt hj hx
  have hgrid : |x| < (2 : ℚ) ^ (m + 53) :=
    lt_of_lt_of_le hx (zpow_le_zpow_right₀ (by norm_num) (by omega))
  obtain ⟨N, hN⟩ := on_grid (x := x) K m (by omega) hgrid
  have hhalf : (2 : ℚ) ^ (j - 53) = (2 : ℚ) ^ (j - 52) / 2 := by
    rw [show j - 53 = (j - 52) - 1 by ring, zpow_sub_one₀ (by norm_num : (2 : ℚ) ≠ 0)]
    ring
  have hy : x / ulp x < N - 1 / 2 := by
    rw [div_lt_iff₀ hu, sub_mul, ← hN]
    linarith
  have hr := roundHalfEven_le_pred hy
  have hr2 : (roundHalfEven (x / ulp x) : ℚ) ≤ N - 1 := by exact_mod_cast hr
  unfold roundDouble
  calc (roundHalfEven (x / ulp x) : ℚ) * ulp x ≤ (N - 1) * ulp x :=
        mul_le_mul_of_nonneg_right hr2 hu.le
    _ = K * (2 : ℚ) ^ m - ulp x := by rw [sub_mul, ← hN]; ring
    _ < K * (2 : ℚ) ^ m := by linarith

/-- Rounding stays strictly below an integer `k` that the argument misses by more than half a
unit in the last place. -/
theorem roundDouble_lt_int {x : ℚ} {k j : ℤ} (hj : -1022 ≤ j) (hj2 : j ≤ 52)
    (hx : |x| < (2 : ℚ) ^ (j + 1)) (hgap : x < k - (2 : ℚ) ^ (j - 53)) : roundDouble x < k := by
  have := roundDouble_lt_grid (x := x) (K := k) (m := 0) hj (by omega) hx (by simpa using hgap)
  simpa using this

/-- Rounding an integer keeps its sign. -/
theorem roundDouble_intCast_nonpos_iff (d : ℤ) : roundDouble (d : ℚ) ≤ 0 ↔ d ≤ 0 := by
  constructor
  · intro h
    by_contra hcon
    have h1 : (1 : ℚ) ≤ (d : ℚ) := by
      have : 1 ≤ d := by omega
      exact_mod_cast this
    have hpos : 0 < |(d : ℚ)| := by rw [abs_of_nonneg (by linarith)]; linarith
    have hne : (d : ℚ) ≠ 0 := by linarith
    have hlog : 0 ≤ Int.log 2 |(d : ℚ)| :=
      (Int.zpow_le_iff_le_log (b := 2) (by norm_num) hpos).mp
        (by rw [abs_of_nonneg (by linarith)]; simpa using h1)
    have hb : binade (d : ℚ) = Int.log 2 |(d : ℚ)| := by
      unfold binade
      rw [if_neg hne, max_eq_left (by omega)]
    have hle := Int.zpow_log_le_self (b := 2) (by norm_num) hpos
    have hu := ulp_pos (d : ℚ)
    have hy : ((1 : ℤ) : ℚ) ≤ (d : ℚ) / ulp (d : ℚ) := by
      rw [le_div_iff₀ hu]
      have hule : ulp (d : ℚ) ≤ (2 : ℚ) ^ (Int.log 2 |(d : ℚ)|) := by
        unfold ulp; rw [hb]
        exact zpow_le_zpow_right₀ (by norm_num) (by omega)
      have : (2 : ℚ) ^ (Int.log 2 |(d : ℚ)|) ≤ (d : ℚ) := by
        have h2 : ((2 : ℕ) : ℚ) ^ (Int.log 2 |(d : ℚ)|) ≤ |(d : ℚ)| := hle
        have h3 : |(d : ℚ)| = (d : ℚ) := abs_of_nonneg (by linarith)
        calc (2 : ℚ) ^ (Int.log 2 |(d : ℚ)|) = ((2 : ℕ) : ℚ) ^ (Int.log 2 |(d : ℚ)|) := by
              norm_num
          _ ≤ |(d : ℚ)| := h2
          _ = (d : ℚ) := h3
      push_cast; linarith
    have hr := le_roundHalfEven_of_le hy
    have hr2 : (1 : ℚ) ≤ (roundHalfEven ((d : ℚ) / ulp (d : ℚ)) : ℚ) := by exact_mod_cast hr
    have : 0 < roundDouble (d : ℚ) := by
      unfold roundDouble
      exact mul_pos (by linarith) hu
    linarith
  · intro h
    have h0 : (d : ℚ) ≤ 0 := by exact_mod_cast h
    exact roundDouble_le_of_le (N := 0) (by simp) h0


/-- A binary64 value below one is the top draw `1 - 2^(-53)` or at most `1 - 2^(-52)`. -/
theorem isDouble_top_or_le {r : ℚ} (hd : isDouble r) (h1 : r < 1) :
    r = topDraw ∨ r ≤ 1 - (2 : ℚ) ^ (-52 : ℤ) := by
  have hsmall : (2 : ℚ) ^ (-52 : ℤ) ≤ 1 / 2 := by
    rw [show (1 / 2 : ℚ) = (2 : ℚ) ^ (-1 : ℤ) by norm_num]
    exact zpow_le_zpow_right₀ (by norm_num) (by norm_num)
  by_cases hhalf : r < 1 / 2
  · right
    have : (1 / 2 : ℚ) ≤ 1 - (2 : ℚ) ^ (-52 : ℤ) := by linarith
    exact le_of_lt (lt_of_lt_of_le hhalf this)
  · have hge : (1 / 2 : ℚ) ≤ r := not_lt.mp hhalf
    have habs : |r| = r := abs_of_nonneg (by linarith)
    have hb : binade r = -1 := by
      apply binade_eq (by norm_num)
      · rw [habs]; norm_num; linarith
      · rw [habs]; norm_num; exact h1
    have hu : ulp r = (2 : ℚ) ^ (-53 : ℤ) := by
      unfold ulp; rw [hb]; norm_num
    unfold isDouble roundDouble at hd
    rw [hu] at hd
    have hpos : (0 : ℚ) < (2 : ℚ) ^ (-53 : ℤ) := by positivity
    set M := roundHalfEven (r / (2 : ℚ) ^ (-53 : ℤ)) with hM
    have hlt : (M : ℚ) * (2 : ℚ) ^ (-53 : ℤ) < (2 ^ 53 : ℤ) * (2 : ℚ) ^ (-53 : ℤ) := by
      rw [hd]
      have : ((2 ^ 53 : ℤ) : ℚ) * (2 : ℚ) ^ (-53 : ℤ) = 1 := by
        norm_num
      rw [this]; exact h1
    have hMlt : M < 2 ^ 53 := by
      have := lt_of_mul_lt_mul_right hlt hpos.le
      exact_mod_cast this
    by_cases htop : M = 2 ^ 53 - 1
    · left
      rw [← hd, htop]
      unfold topDraw
      norm_num
    · right
      have hMle : (M : ℚ) ≤ (2 ^ 53 : ℤ) - 2 := by
        have : M ≤ 2 ^ 53 - 2 := by omega
        exact_mod_cast this
      calc r = (M : ℚ) * (2 : ℚ) ^ (-53 : ℤ) := hd.symm
        _ ≤ (((2 ^ 53 : ℤ) : ℚ) - 2) * (2 : ℚ) ^ (-53 : ℤ) :=
            mul_le_mul_of_nonneg_right hMle hpos.le
        _ = 1 - (2 : ℚ) ^ (-52 : ℤ) := by
            norm_num

/-- The top draw is a binary64 number in `[0, 1)`. -/
theorem isRandomDraw_topDraw : isRandomDraw topDraw := by
  have hval : topDraw = 9007199254740991 / 9007199254740992 := by
    unfold topDraw; norm_num
  refine ⟨by rw [hval]; norm_num, by rw [hval]; norm_num, ?_⟩
  unfold isDouble
  rw [roundDouble_eq_of (x := topDraw) (e := -1) (n := 9007199254740991) (by norm_num)
    (by rw [hval]; norm_num [abs_of_nonneg]) (by rw [hval]; norm_num [abs_of_nonneg])
    (by
      have : topDraw / (2 : ℚ) ^ ((-1 : ℤ) - 52) = ((9007199254740991 : ℤ) : ℚ) := by
        rw [hval]; norm_num
      rw [this, roundHalfEven_intCast])]
  rw [hval]; norm_num

/-- Zero is a binary64 number in `[0, 1)`. -/
theorem isRandomDraw_zero : isRandomDraw 0 := by
  refine ⟨le_rfl, by norm_num, ?_⟩
  unfold isDouble
  have := roundDouble_int (k := 0) (by norm_num)
  simpa using this

/-- The result `r * a + b` of scaling a random draw, computed in binary64, lies in `[b, a + b]`. -/
theorem scaled_draw_bounds {r : ℚ} (a b : ℕ) (hr : isRandomDraw r)
    (hab : a + b < 2 ^ 53) :
    (b : ℚ) ≤ addD (mulD r a) b ∧ addD (mulD r a) b ≤ (a : ℚ) + b ∧
    0 ≤ mulD r a ∧ mulD r a ≤ a := by
  obtain ⟨h0, h1, _⟩ := hr
  have ha0 : (0 : ℚ) ≤ a := Nat.cast_nonneg a
  have hb0 : (0 : ℚ) ≤ b := Nat.cast_nonneg b
  have hab2 : (a : ℚ) + b < (2 : ℚ) ^ (53 : ℤ) := by
    have : ((a + b : ℕ) : ℚ) < ((2 ^ 53 : ℕ) : ℚ) := by exact_mod_cast hab
    push_cast at this
    norm_num
    linarith
  have hx0 : 0 ≤ r * a := mul_nonneg h0 ha0
  have hx1 : r * a ≤ a := by nlinarith
  have hxabs : |r * a| < (2 : ℚ) ^ (53 : ℤ) := by
    rw [abs_of_nonneg hx0]; linarith
  have hm0 : (0 : ℚ) ≤ mulD r a := by
    have := int_le_roundDouble (x := r * a) (k := 0) hxabs (by simpa using hx0)
    simpa [mulD] using this
  have hm1 : mulD r a ≤ a := by
    have := roundDouble_le_int (x := r * a) (k := (a : ℤ)) hxabs (by simpa using hx1)
    simpa [mulD] using this
  have hzabs : |mulD r a + b| < (2 : ℚ) ^ (53 : ℤ) := by
    rw [abs_of_nonneg (by linarith)]; linarith
  refine ⟨?_, ?_, hm0, hm1⟩
  · have := int_le_roundDouble (x := mulD r a + b) (k := (b : ℤ)) hzabs (by simp; linarith)
    simpa [addD] using this
  · have := roundDouble_le_int (x := mulD r a + b) (k := ((a + b : ℕ) : ℤ)) hzabs
      (by push_cast; linarith)
    simpa [addD] using this

/-- Strict upper bound of a scaled draw `r * a + b` when `r` is not the top draw: the product
stays a full unit in the last place below `a`, and the sum then rounds below `a + b`.  The
integer `K` names the grid point just below `a`. -/
theorem scaled_draw_lt {r : ℚ} (a b K j : ℤ) (hj : -1022 ≤ j) (hj2 : j + 1 ≤ 52)
    (hr0 : 0 ≤ r) (hr : r ≤ 1 - (2 : ℚ) ^ (-52 : ℤ)) (ha : 0 ≤ a) (hb : 0 ≤ b)
    (hK : (K : ℚ) * (2 : ℚ) ^ (j - 52) = a - (2 : ℚ) ^ (j - 52))
    (ha2 : (a : ℚ) < (2 : ℚ) ^ (j + 1)) (hab : (a : ℚ) + b < (2 : ℚ) ^ (j + 1 + 1))
    (hgap : (a : ℚ) - a * (2 : ℚ) ^ (-52 : ℤ) < a - (2 : ℚ) ^ (j - 52) - (2 : ℚ) ^ (j - 53)) :
    addD (mulD r a) b < (a : ℚ) + b := by
  have ha0 : (0 : ℚ) ≤ a := by exact_mod_cast ha
  have hb0 : (0 : ℚ) ≤ b := by exact_mod_cast hb
  have hx0 : 0 ≤ r * a := mul_nonneg hr0 ha0
  have hx1 : r * a ≤ a - a * (2 : ℚ) ^ (-52 : ℤ) := by
    have := mul_le_mul_of_nonneg_right hr ha0
    linarith
  have hpow : (0 : ℚ) < (2 : ℚ) ^ (-52 : ℤ) := by positivity
  have hxa : r * a ≤ a := by nlinarith
  have hxabs : |r * a| < (2 : ℚ) ^ (j + 1) := by
    rw [abs_of_nonneg hx0]; linarith
  have hstep1 : mulD r a < a - (2 : ℚ) ^ (j - 52) := by
    have := roundDouble_lt_grid (x := r * a) (K := K) (m := j - 52) (j := j) hj le_rfl hxabs
      (by rw [hK]; linarith)
    rw [hK] at this
    exact this
  have h53 : |r * a| < (2 : ℚ) ^ (53 : ℤ) :=
    lt_of_lt_of_le hxabs (zpow_le_zpow_right₀ (by norm_num) (by omega))
  have hm0 : (0 : ℚ) ≤ mulD r a := by
    have := int_le_roundDouble (x := r * a) (k := 0) h53 (by simpa using hx0)
    simpa [mulD] using this
  have hzabs : |mulD r a + b| < (2 : ℚ) ^ (j + 1 + 1) := by
    have hp : (0 : ℚ) < (2 : ℚ) ^ (j - 52) := by positivity
    rw [abs_of_nonneg (by linarith)]; linarith
  have := roundDouble_lt_int (x := mulD r a + b) (k := a + b) (j := j + 1) (by omega) hj2 hzabs
    (by
      rw [show j + 1 - 53 = j - 52 by ring]
      push_cast
      linarith)
  simpa [addD] using this

/-- The value of `Math.floor(Math.random() * 10)` is one of `0, ..., 9`. -/
theorem floor_scaled_ten {r : ℚ} (hr : isRandomDraw r) :
    0 ≤ ⌊mulD r 10⌋ ∧ ⌊mulD r 10⌋ < 10 := by
  obtain ⟨h0, h1, hd⟩ := hr
  have htop : r ≤ topDraw := by
    rcases isDouble_top_or_le hd h1 with h | h
    · exact h.le
    · unfold topDraw
      have : (2 : ℚ) ^ (-53 : ℤ) ≤ (2 : ℚ) ^ (-52 : ℤ) :=
        zpow_le_zpow_right₀ (by norm_num) (by norm_num)
      linarith
  have hx0 : 0 ≤ r * 10 := by linarith
  have hxabs : |r * 10| < (2 : ℚ) ^ ((3 : ℤ) + 1) := by
    rw [abs_of_nonneg hx0]; norm_num; linarith
  have h53 : |r * 10| < (2 : ℚ) ^ (53 : ℤ) :=
    lt_of_lt_of_le hxabs (zpow_le_zpow_right₀ (by norm_num) (by norm_num))
  have hlo : (0 : ℚ) ≤ mulD r 10 := by
    have := int_le_roundDouble (x := r * 10) (k := 0) h53 (by simpa using hx0)
    simpa [mulD] using this
  have hhi : mulD r 10 < 10 := by
    have := roundDouble_lt_int (x := r * 10) (k := 10) (j := 3) (by norm_num) (by norm_num)
      hxabs (by
        unfold topDraw at htop
        have h2 : r * 10 ≤ (1 - (2 : ℚ) ^ (-53 : ℤ)) * 10 := by linarith
        have h3 : (1 - (2 : ℚ) ^ (-53 : ℤ)) * 10 < ((10 : ℤ) : ℚ) - (2 : ℚ) ^ ((3 : ℤ) - 53) := by
          norm_num
        linarith)
    simpa [mulD] using this
  constructor
  · exact Int.floor_nonneg.mpr hlo
  · exact Int.floor_lt.mpr (by exact_mod_cast hhi)

/-- Evaluation of `roundDouble` at a point nearer to the grid point below it. -/
theorem roundDouble_eval_down {x : ℚ} (e f : ℤ) (he : -1022 ≤ e) (hlo : (2 : ℚ) ^ e ≤ |x|)
    (hhi : |x| < (2 : ℚ) ^ (e + 1)) (h1 : (f : ℚ) ≤ x / (2 : ℚ) ^ (e - 52))
    (h2 : x / (2 : ℚ) ^ (e - 52) < f + 1 / 2) : roundDouble x = f * (2 : ℚ) ^ (e - 52) :=
  roundDouble_eq_of he hlo hhi (roundHalfEven_of_floor_lt h1 h2)

/-- Evaluation of `roundDouble` at the midpoint above an odd grid point. -/
theorem roundDouble_eval_tie_odd {x : ℚ} (e f : ℤ) (he : -1022 ≤ e) (hlo : (2 : ℚ) ^ e ≤ |x|)
    (hhi : |x| < (2 : ℚ) ^ (e + 1)) (h1 : x / (2 : ℚ) ^ (e - 52) = f + 1 / 2)
    (hodd : f % 2 = 1) : roundDouble x = (f + 1 : ℤ) * (2 : ℚ) ^ (e - 52) :=
  roundDouble_eq_of he hlo hhi (roundHalfEven_of_tie_odd h1 hodd)

/-- At the top draw the three scaled measurements round up to their open upper bounds. -/
theorem scaled_topDraw :
    addD (mulD topDraw 100) 50 = 150 ∧ addD (mulD topDraw 500) 200 = 700 ∧
    addD (mulD topDraw 1000) 500 = 1500 := by
  have hval : topDraw = 9007199254740991 / 9007199254740992 := by
    unfold topDraw; norm_num
  have m1 : mulD topDraw 100 = 7036874417766399 / 70368744177664 := by
    unfold mulD
    rw [roundDouble_eval_down (x := topDraw * 100) 6 7036874417766399 (by norm_num)
      (by rw [hval]; norm_num [abs_of_nonneg]) (by rw [hval]; norm_num [abs_of_nonneg])
      (by rw [hval]; norm_num) (by rw [hval]; norm_num)]
    norm_num
  have m2 : mulD topDraw 500 = 8796093022207999 / 17592186044416 := by
    unfold mulD
    rw [roundDouble_eval_down (x := topDraw * 500) 8 8796093022207999 (by norm_num)
      (by rw [hval]; norm_num [abs_of_nonneg]) (by rw [hval]; norm_num [abs_of_nonneg])
      (by rw [hval]; norm_num) (by rw [hval]; norm_num)]
    norm_num
  have m3 : mulD topDraw 1000 = 8796093022207999 / 8796093022208 := by
    unfold mulD
    rw [roundDouble_eval_down (x := topDraw * 1000) 9 8796093022207999 (by norm_num)
      (by rw [hval]; norm_num [abs_of_nonneg]) (by rw [hval]; norm_num [abs_of_nonneg])
      (by rw [hval]; norm_num) (by rw [hval]; norm_num)]
    norm_num
  refine ⟨?_, ?_, ?_⟩
  · rw [m1]
    unfold addD
    rw [roundDouble_eval_tie_odd (x := 7036874417766399 / 70368744177664 + 50) 7
      5277655813324799 (by norm_num) (by norm_num [abs_of_nonneg])
      (by norm_num [abs_of_nonneg]) (by norm_num) (by norm_num)]
    norm_num
  · rw [m2]
    unfold addD
    rw [roundDouble_eval_tie_odd (x := 8796093022207999 / 17592186044416 + 200) 9
      6157265115545599 (by norm_num) (by norm_num [abs_of_nonneg])
      (by norm_num [abs_of_nonneg]) (by norm_num) (by norm_num)]
    norm_num
  · rw [m3]
    unfold addD
    rw [roundDouble_eval_tie_odd (x := 8796093022207999 / 8796093022208 + 500) 10
      6597069766655999 (by norm_num) (by norm_num [abs_of_nonneg])
      (by norm_num [abs_of_nonneg]) (by norm_num) (by norm_num)]
    norm_num

/-! ## TelemetryFeed -/

/-- The bounds every scaled measurement of a telemetry sample obeys. -/
theorem telemetrySample_ranges (h : Host) (now : Int) (random : Nat → ℚ) (i : Nat)
    (hr : ∀ k, isRandomDraw (random k)) :
    50 ≤ (telemetrySample h now random i).apiLatency ∧
    (telemetrySample h now random i).apiLatency ≤ 150 ∧
    200 ≤ (telemetrySample h now random i).lambdaDuration ∧
    (telemetrySample h now random i).lambdaDuration ≤ 700 ∧
    500 ≤ (telemetrySample h now random i).dynamoRead ∧
    (telemetrySample h now random i).dynamoRead ≤ 1500 ∧
    0 ≤ (telemetrySample h now random i).errors ∧
    (telemetrySample h now random i).errors < 10 := by
  have b1 := scaled_draw_bounds 100 50 (hr (4 * i)) (by norm_num)
  have b2 := scaled_draw_bounds 500 200 (hr (4 * i + 1)) (by norm_num)
  have b3 := scaled_draw_bounds 1000 500 (hr (4 * i + 2)) (by norm_num)
  have b4 := floor_scaled_ten (hr (4 * i + 3))
  simp only [telemetrySample]
  norm_num at b1 b2 b3
  exact ⟨b1.1, b1.2.1, b2.1, b2.2.1, b3.1, b3.2.1, b4.1, b4.2⟩

/-- Below the top draw the three upper bounds are strict. -/
theorem telemetrySample_strict (h : Host) (now : Int) (random : Nat → ℚ) (i : Nat)
    (hr : ∀ k, isRandomDraw (random k)) :
    (random (4 * i) ≠ topDraw → (telemetrySample h now random i).apiLatency < 150) ∧
    (random (4 * i + 1) ≠ topDraw → (telemetrySample h now random i).lambdaDuration < 700) ∧
    (random (4 * i + 2) ≠ topDraw → (telemetrySample h now random i).dynamoRead < 1500) := by
  have hle : ∀ k, random k ≠ topDraw → random k ≤ 1 - (2 : ℚ) ^ (-52 : ℤ) := by
    intro k hk
    rcases isDouble_top_or_le (hr k).2.2 (hr k).2.1 with h1 | h1
    · exact absurd h1 hk
    · exact h1
  simp only [telemetrySample]
  refine ⟨?_, ?_, ?_⟩
  · intro hne
    have := scaled_draw_lt (r := random (4 * i)) 100 50 7036874417766399 6 (by norm_num)
      (by norm_num) (hr _).1 (hle _ hne) (by norm_num) (by norm_num) (by norm_num)
      (by norm_num) (by norm_num) (by norm_num)
    norm_num at this
    exact this
  · intro hne
    have := scaled_draw_lt (r := random (4 * i + 1)) 500 200 8796093022207999 8 (by norm_num)
      (by norm_num) (hr _).1 (hle _ hne) (by norm_num) (by norm_num) (by norm_num)
      (by norm_num) (by norm_num) (by norm_num)
    norm_num at this
    exact this
  · intro hne
    have := scaled_draw_lt (r := random (4 * i + 2)) 1000 500 8796093022207999 9 (by norm_num)
      (by norm_num) (hr _).1 (hle _ hne) (by norm_num) (by norm_num) (by norm_num)
      (by norm_num) (by norm_num) (by norm_num)
    norm_num at this
    exact this

/-- C8 (the claim fails at the top draw): when every `Math.random()` call returns
`1 - 2^(-53)`, a binary64 number in `[0, 1)`, each of the 20 stored samples has
`apiLatency = 150`, `lambdaDuration = 700` and `dynamoRead = 1500`: the products round to one
unit below 100, 500, 1000 and the sums then round up, so the strict upper bounds fail. -/
theorem C8_top_draw_counterexample :
    isRandomDraw topDraw ∧
    (generateTelemetryData Host.fixture 1700000000000 (fun _ => topDraw)
      State.initial).telemetryData.length = 20 ∧
    ∀ smp ∈ (generateTelemetryData Host.fixture 1700000000000 (fun _ => topDraw)
        State.initial).telemetryData,
      smp.apiLatency = 150 ∧ ¬ smp.apiLatency < 150 ∧
      smp.lambdaDuration = 700 ∧ ¬ smp.lambdaDuration < 700 ∧
      smp.dynamoRead = 1500 ∧ ¬ smp.dynamoRead < 1500 := by
  refine ⟨isRandomDraw_topDraw, by simp [generateTelemetryData], ?_⟩
  intro smp hs
  simp only [generateTelemetryData, List.mem_map] at hs
  obtain ⟨i, _, rfl⟩ := hs
  obtain ⟨t1, t2, t3⟩ := scaled_topDraw
  simp only [telemetrySample, t1, t2, t3]
  norm_num

/-- C8 (amended): for every current time and every sequence of binary64 draws in `[0, 1)`,
`generateTelemetryData` stores exactly 20 samples, sample `i` being the callback's value at
`i`; every sample has `50 ≤ apiLatency ≤ 150`, `200 ≤ lambdaDuration ≤ 700`,
`500 ≤ dynamoRead ≤ 1500` and an integer `errors` with `0 ≤ errors < 10`; and each of the three
upper bounds is strict unless the draw it is computed from is the top draw `1 - 2^(-53)`. -/
theorem C8_telemetry_ranges (h : Host) (now : Int) (random : Nat → ℚ) (s : State)
    (hr : ∀ k, isRandomDraw (random k)) :
    (generateTelemetryData h now random s).telemetryData.length = 20 ∧
    (∀ smp ∈ (generateTelemetryData h now random s).telemetryData,
      50 ≤ smp.apiLatency ∧ smp.apiLatency ≤ 150 ∧
      200 ≤ smp.lambdaDuration ∧ smp.lambdaDuration ≤ 700 ∧
      500 ≤ smp.dynamoRead ∧ smp.dynamoRead ≤ 1500 ∧
      0 ≤ smp.errors ∧ smp.errors < 10) ∧
    (∀ i, i < 20 → (generateTelemetryData h now random s).telemetryData[i]? =
      some (telemetrySample h now random i)) ∧
    (∀ i, (random (4 * i) ≠ topDraw → (telemetrySample h now random i).apiLatency < 150) ∧
      (random (4 * i + 1) ≠ topDraw → (telemetrySample h now random i).lambdaDuration < 700) ∧
      (random (4 * i + 2) ≠ topDraw → (telemetrySample h now random i).dynamoRead < 1500)) := by
  refine ⟨by simp [generateTelemetryData], ?_, ?_, fun i => telemetrySample_strict h now random i hr⟩
  · intro smp hs
    simp only [generateTelemetryData, List.mem_map] at hs
    obtain ⟨i, _, rfl⟩ := hs
    exact telemetrySample_ranges h now random i hr
  · intro i hi
    simp [generateTelemetryData, List.getElem?_map, List.getElem?_range hi]

/-- A refresh in which every draw is zero. -/
theorem C8_telemetry_ranges_witness :
    (∀ k : Nat, isRandomDraw ((fun _ => (0 : ℚ)) k)) ∧
    (generateTelemetryData Host.fixture 1700000000000 (fun _ => 0)
      State.initial).telemetryData.length = 20 :=
  ⟨fun _ => isRandomDraw_zero,
   (C8_telemetry_ranges Host.fixture 1700000000000 (fun _ => 0) State.initial
      (fun _ => isRandomDraw_zero)).1⟩

/-! ## Dates and exact integer arithmetic -/

/-- An integer below `2^53` in magnitude is a binary64 number. -/
theorem roundDouble_int_of_bounds {k : ℤ} (h1 : -9007199254740992 < k)
    (h2 : k < 9007199254740992) : roundDouble (k : ℚ) = k := by
  apply roundDouble_int
  rw [abs_lt]
  constructor
  · have : ((-9007199254740992 : ℤ) : ℚ) < (k : ℚ) := by exact_mod_cast h1
    norm_num at this ⊢
    exact this
  · have : (k : ℚ) < ((9007199254740992 : ℤ) : ℚ) := by exact_mod_cast h2
    norm_num at this ⊢
    exact this

theorem truncate_intCast (k : ℤ) : truncate (k : ℚ) = k := by
  unfold truncate
  split_ifs <;> simp

/-- For an integer `k` in the Date range, `new Date(k)` is the valid date of time value `k`. -/
theorem newDate_intCast {k : ℤ} (h1 : -maxTimeValue ≤ k) (h2 : k ≤ maxTimeValue) :
    newDate (k : ℚ) = some k := by
  unfold newDate
  have : |(k : ℚ)| ≤ (maxTimeValue : ℚ) := by
    rw [abs_le]
    constructor
    · have : ((-maxTimeValue : ℤ) : ℚ) ≤ (k : ℚ) := by exact_mod_cast h1
      simpa using this
    · exact_mod_cast h2
  rw [if_pos this, truncate_intCast]

/-- The date arithmetic of `generateTelemetryData` is exact. -/
theorem telemetryInstant_eq (now : Int) (i : Nat) (hi : i < 20)
    (hlo : -maxTimeValue + 1140000 ≤ now) (hhi : now ≤ maxTimeValue) :
    telemetryInstant now i = some (now - (19 - (i : Int)) * 60000) := by
  unfold maxTimeValue at hlo hhi
  have e1 : subD 19 (i : ℚ) = ((19 - (i : ℤ) : ℤ) : ℚ) := by
    unfold subD
    rw [show (19 : ℚ) - (i : ℚ) = ((19 - (i : ℤ) : ℤ) : ℚ) by push_cast; ring]
    exact roundDouble_int_of_bounds (by omega) (by omega)
  have e2 : mulD ((19 - (i : ℤ) : ℤ) : ℚ) 60000 = (((19 - (i : ℤ)) * 60000 : ℤ) : ℚ) := by
    unfold mulD
    rw [show ((19 - (i : ℤ) : ℤ) : ℚ) * 60000 = (((19 - (i : ℤ)) * 60000 : ℤ) : ℚ) by
      push_cast; ring]
    exact roundDouble_int_of_bounds (by omega) (by omega)
  have e3 : subD (now : ℚ) (((19 - (i : ℤ)) * 60000 : ℤ) : ℚ) =
      ((now - (19 - (i : ℤ)) * 60000 : ℤ) : ℚ) := by
    unfold subD
    rw [show (now : ℚ) - (((19 - (i : ℤ)) * 60000 : ℤ) : ℚ) =
      ((now - (19 - (i : ℤ)) * 60000 : ℤ) : ℚ) by push_cast; ring]
    exact roundDouble_int_of_bounds (by omega) (by omega)
  unfold telemetryInstant
  rw [e1, e2, e3]
  exact newDate_intCast (by unfold maxTimeValue; omega) (by unfold maxTimeValue; omega)

/-- C9: for every current time `now` (a `Date.now()` value in the Date range, at least 19
minutes after its lower end), sample `i` of the window (`i = 0..19`) is stamped with the valid
date of instant `now - (19 - i) * 60000` and carries its locale time label; the instants are
strictly increasing, consecutive ones exactly 60000 ms apart, the last is `now` and the first
`now - 19 * 60000`. -/
theorem C9_telemetry_window_instants (h : Host) (now : Int) (random : Nat → ℚ) (s : State)
    (hlo : -maxTimeValue + 1140000 ≤ now) (hhi : now ≤ maxTimeValue) :
    (∀ i, i < 20 → telemetryInstant now i = some (now - (19 - (i : Int)) * 60000)) ∧
    (generateTelemetryData h now random s).telemetryData.map (·.time) =
      (List.range 20).map
        (fun i : Nat => h.toLocaleTimeString (now - (19 - (i : Int)) * 60000)) ∧
    (∀ i j ti tj, i < j → j < 20 → telemetryInstant now i = some ti →
      telemetryInstant now j = some tj → ti < tj) ∧
    (∀ i ti tj, i + 1 < 20 → telemetryInstant now i = some ti →
      telemetryInstant now (i + 1) = some tj → tj - ti = 60000) ∧
    telemetryInstant now 19 = some now ∧
    telemetryInstant now 0 = some (now - 19 * 60000) := by
  have hinst := fun i hi => telemetryInstant_eq now i hi hlo hhi
  refine ⟨hinst, ?_, ?_, ?_, ?_, ?_⟩
  · simp only [generateTelemetryData, List.map_map]
    apply List.map_congr_left
    intro i hi
    have hi20 : i < 20 := List.mem_range.mp hi
    simp [telemetrySample, hinst i hi20, dateToLocaleTimeString]
  · intro i j ti tj hij hj hti htj
    rw [hinst i (by omega)] at hti
    rw [hinst j hj] at htj
    injection hti with hti
    injection htj with htj
    omega
  · intro i ti tj hi hti htj
    rw [hinst i (by omega)] at hti
    rw [hinst (i + 1) hi] at htj
    injection hti with hti
    injection htj with htj
    push_cast at htj
    omega
  · have := hinst 19 (by norm_num)
    simpa using this
  · have := hinst 0 (by norm_num)
    simpa using this

/-- A refresh at `now = 1700000000000` (14 November 2023). -/
theorem C9_telemetry_window_instants_witness :
    -maxTimeValue + 1140000 ≤ (1700000000000 : Int) ∧ (1700000000000 : Int) ≤ maxTimeValue ∧
    telemetryInstant 1700000000000 19 = some 1700000000000 ∧
    telemetryInstant 1700000000000 0 = some (1700000000000 - 19 * 60000) :=
  ⟨by decide, by decide,
   (C9_telemetry_window_instants Host.fixture 1700000000000 (fun _ => 0) State.initial
      (by decide) (by decide)).2.2.2.2.1,
   (C9_telemetry_window_instants Host.fixture 1700000000000 (fun _ => 0) State.initial
      (by decide) (by decide)).2.2.2.2.2⟩

/-! ## AlarmFeed -/

/-- The comparator orders by descending instant: its sign is that of the exact difference. -/
theorem alarmOrder_iff (a b : Alarm) : alarmOrder a b ↔ b.timestamp ≤ a.timestamp := by
  unfold alarmOrder compareAlarms subD
  rw [show (b.timestamp : ℚ) - (a.timestamp : ℚ) = ((b.timestamp - a.timestamp : ℤ) : ℚ) by
    push_cast; ring]
  rw [roundDouble_intCast_nonpos_iff]
  omega

instance : IsTotal Alarm alarmOrder :=
  ⟨fun a b => by
    rw [alarmOrder_iff, alarmOrder_iff]
    exact le_total _ _⟩

instance : IsTrans Alarm alarmOrder :=
  ⟨fun a b c hab hbc => by
    rw [alarmOrder_iff] at hab hbc ⊢
    exact le_trans hbc hab⟩

/-- With every element callback succeeding, `Array.from` returns an array of the asked length. -/
theorem mapThrow_ok {α : Type} (f : Nat → Except JsError α) (l : List Nat)
    (hf : ∀ i ∈ l, ∃ a, f i = .ok a) :
    ∃ out, mapThrow f l = .ok out ∧ out.length = l.length := by
  induction l with
  | nil => exact ⟨[], rfl, rfl⟩
  | cons i rest ih =>
    obtain ⟨a, ha⟩ := hf i (List.mem_cons_self _ _)
    obtain ⟨out, hout, hlen⟩ := ih (fun j hj => hf j (List.mem_cons_of_mem _ hj))
    exact ⟨a :: out, by simp [mapThrow, ha, hout], by simp [hlen]⟩

/-- The date of an alarm is valid when the clock reads a time in the Date range at least one
hour after its lower end. -/
theorem alarm_date_valid {r : ℚ} {t : Int} (hr : isRandomDraw r)
    (hlo : -maxTimeValue + 3600000 ≤ t) (hhi : t ≤ maxTimeValue) :
    ∃ ts, newDate (subD t (mulD r 3600000)) = some ts := by
  unfold maxTimeValue at hlo hhi
  obtain ⟨_, _, hm0, hm1⟩ := scaled_draw_bounds 3600000 0 hr (by norm_num)
  norm_num at hm0 hm1
  have hxlo : ((t - 3600000 : ℤ) : ℚ) ≤ (t : ℚ) - mulD r 3600000 := by
    push_cast; linarith
  have hxhi : (t : ℚ) - mulD r 3600000 ≤ ((t : ℤ) : ℚ) := by linarith
  have ht1 : ((-8640000000000000 : ℤ) : ℚ) ≤ ((t - 3600000 : ℤ) : ℚ) := by
    exact_mod_cast (by omega : (-8640000000000000 : ℤ) ≤ t - 3600000)
  have ht2 : ((t : ℤ) : ℚ) ≤ ((8640000000000000 : ℤ) : ℚ) := by exact_mod_cast hhi
  have hxabs : |(t : ℚ) - mulD r 3600000| < (2 : ℚ) ^ (53 : ℤ) := by
    rw [abs_lt]
    norm_num at ht1 ht2 ⊢
    constructor <;> linarith
  have h1 := int_le_roundDouble (k := t - 3600000) hxabs hxlo
  have h2 := roundDouble_le_int (k := t) hxabs hxhi
  push_cast at h1 h2
  unfold subD newDate
  rw [if_pos]
  · exact ⟨_, rfl⟩
  · rw [abs_le]
    unfold maxTimeValue
    norm_num at ht1 ht2 ⊢
    constructor <;> linarith

/-- The callback of `generateAlarms` does not throw on such inputs. -/
theorem newAlarm_ok (h : Host) (clock : Nat → Int) (random : Nat → ℚ) (i : Nat)
    (hr : ∀ k, isRandomDraw (random k))
    (hc : ∀ k, -maxTimeValue + 3600000 ≤ clock k ∧ clock k ≤ maxTimeValue) :
    ∃ a, newAlarm h clock random i = .ok a := by
  obtain ⟨ts, hts⟩ := alarm_date_valid (hr (3 * i + 1)) (hc (2 * i + 1)).1 (hc (2 * i + 1)).2
  unfold newAlarm
  simp only []
  rw [hts]
  exact ⟨_, rfl⟩

/-- C7: for every sequence of clock readings (each a `Date.now()` value in the Date range, at
least one hour after its lower end) and every sequence of binary64 draws in `[0, 1)`,
`generateAlarms` ends normally and stores a batch of exactly 5 events which is a permutation
of the 5 generated events and in which every event's timestamp instant is greater than or equal
to that of every later event. -/
theorem C7_alarm_batch_sorted (h : Host) (clock : Nat → Int) (random : Nat → ℚ) (s : State)
    (hr : ∀ k, isRandomDraw (random k))
    (hc : ∀ k, -maxTimeValue + 3600000 ≤ clock k ∧ clock k ≤ maxTimeValue) :
    ∃ generated, generatedAlarms h clock random = .ok generated ∧ generated.length = 5 ∧
      generateAlarms h clock random s = .normal { s with alarms := sortAlarms generated } ∧
      (generateAlarms h clock random s).state.alarms.length = 5 ∧
      List.Pairwise (fun a b => b.timestamp ≤ a.timestamp)
        (generateAlarms h clock random s).state.alarms ∧
      List.Perm (generateAlarms h clock random s).state.alarms generated := by
  have hok : ∀ i ∈ List.range 5, ∃ a, newAlarm h clock random i = .ok a :=
    fun i _ => newAlarm_ok h clock random i hr hc
  obtain ⟨generated, hgen, hlen⟩ := mapThrow_ok (newAlarm h clock random) (List.range 5) hok
  have hrun : generateAlarms h clock random s =
      .normal { s with alarms := sortAlarms generated } := by
    unfold generateAlarms generatedAlarms
    rw [hgen]
  have hperm : List.Perm (sortAlarms generated) generated := List.perm_insertionSort _ _
  refine ⟨generated, hgen, by simpa using hlen, hrun, ?_, ?_, ?_⟩
  · rw [hrun]
    simp only [Completion.state]
    rw [hperm.length_eq]
    simpa using hlen
  · rw [hrun]
    simp only [Completion.state]
    have hsorted : List.Sorted alarmOrder (sortAlarms generated) :=
      List.sorted_insertionSort alarmOrder generated
    exact List.Pairwise.imp (fun {a b} hab => (alarmOrder_iff a b).mp hab) hsorted
  · rw [hrun]
    exact hperm

/-- A refresh at a constant clock with every draw zero. -/
theorem C7_alarm_batch_sorted_witness :
    (∀ k : Nat, isRandomDraw ((fun _ => (0 : ℚ)) k)) ∧
    (∀ k : Nat, -maxTimeValue + 3600000 ≤ (fun _ => (1700000000000 : Int)) k ∧
      (fun _ => (1700000000000 : Int)) k ≤ maxTimeValue) ∧
    (generateAlarms Host.fixture (fun _ => 1700000000000) (fun _ => 0)
      State.initial).state.alarms.length = 5 :=
  ⟨fun _ => isRandomDraw_zero, fun _ => ⟨by norm_num [maxTimeValue], by norm_num [maxTimeValue]⟩,
   by
    obtain ⟨_, _, _, _, hlen, _⟩ :=
      C7_alarm_batch_sorted Host.fixture (fun _ => 1700000000000) (fun _ => 0) State.initial
        (fun _ => isRandomDraw_zero)
        (fun _ => ⟨by norm_num [maxTimeValue], by norm_num [maxTimeValue]⟩)
    exact hlen⟩

/-! ## CorrelationFeed -/

/-- The ranges of one correlation finding. -/
theorem newCorrelation_ranges (h : Host) (clock : Nat → Int) (random : Nat → ℚ) (i : Nat)
    (pattern : String) (hr : ∀ k, isRandomDraw (random k)) :
    (∃ n : Nat, 700 ≤ n ∧ n ≤ 1000 ∧
      (newCorrelation h clock random i pattern).confidence =
        toString (n / 10) ++ "." ++ toString (n % 10)) ∧
    5 ≤ (newCorrelation h clock random i pattern).occurrences ∧
    (newCorrelation h clock random i pattern).occurrences ≤ 25 := by
  have b1 := scaled_draw_bounds 30 70 (hr (3 * i)) (by norm_num)
  have b2 := scaled_draw_bounds 20 5 (hr (3 * i + 1)) (by norm_num)
  norm_num at b1 b2
  obtain ⟨hc1, hc2, _, _⟩ := b1
  obtain ⟨ho1, ho2, _, _⟩ := b2
  refine ⟨?_, ?_, ?_⟩
  · set x := addD (mulD (random (3 * i)) 30) 70 with hx
    have habs : |x| = x := abs_of_nonneg (by linarith)
    have hfl1 : (700 : ℤ) ≤ ⌊x * 10 + 1 / 2⌋ := Int.le_floor.mpr (by push_cast; linarith)
    have hfl2 : ⌊x * 10 + 1 / 2⌋ ≤ (1000 : ℤ) := by
      have : ⌊x * 10 + 1 / 2⌋ < (1001 : ℤ) := Int.floor_lt.mpr (by push_cast; linarith)
      omega
    refine ⟨⌊x * 10 + 1 / 2⌋.toNat, by omega, by omega, ?_⟩
    have hbig : ¬ (10 : ℚ) ^ 21 ≤ x := by
      rw [not_le]
      have : (100 : ℚ) < (10 : ℚ) ^ 21 := by norm_num
      linarith
    have hneg : ¬ x < 0 := by linarith
    simp only [newCorrelation, ← hx, toFixed1, habs, if_neg hbig, if_neg hneg, tenthsText,
      String.empty_append]
  · simp only [newCorrelation]
    exact Int.le_floor.mpr (by push_cast; linarith)
  · simp only [newCorrelation]
    have : ⌊addD (mulD (random (3 * i + 1)) 20) 5⌋ < (26 : ℤ) :=
      Int.floor_lt.mpr (by push_cast; linarith)
    omega

/-- C10: for every sequence of binary64 draws in `[0, 1)` (and every clock), the correlations
effect stores exactly one finding per catalog entry, 4 findings in catalog order, with ids
`0, 1, 2, 3` and the catalog strings as patterns; the confidence of each finding is the decimal
text of `n / 10` with exactly one decimal digit for an integer `700 ≤ n ≤ 1000` (a value in
`[70, 100]`), and its occurrences is an integer between 5 and 25. -/
theorem C10_correlation_findings (h : Host) (clock : Nat → Int) (random : Nat → ℚ) (s : State)
    (hr : ∀ k, isRandomDraw (random k)) :
    (computeCorrelations h clock random s).correlations.length = 4 ∧
    (computeCorrelations h clock random s).correlations.length = correlationPatterns.length ∧
    (computeCorrelations h clock random s).correlations.map (·.id) = [0, 1, 2, 3] ∧
    (computeCorrelations h clock random s).correlations.map (·.pattern) = correlationPatterns ∧
    ∀ c ∈ (computeCorrelations h clock random s).correlations,
      (∃ n : Nat, 700 ≤ n ∧ n ≤ 1000 ∧
        c.confidence = toString (n / 10) ++ "." ++ toString (n % 10)) ∧
      5 ≤ c.occurrences ∧ c.occurrences ≤ 25 := by
  refine ⟨rfl, rfl, rfl, rfl, ?_⟩
  intro c hc
  simp only [computeCorrelations, List.mem_map] at hc
  obtain ⟨p, _, rfl⟩ := hc
  exact newCorrelation_ranges h clock random p.1 p.2 hr

/-- The effect run with every draw zero. -/
theorem C10_correlation_findings_witness :
    (∀ k : Nat, isRandomDraw ((fun _ => (0 : ℚ)) k)) ∧
    (computeCorrelations Host.fixture (fun _ => 1700000000000) (fun _ => 0)
      State.initial).correlations.map (·.id) = [0, 1, 2, 3] :=
  ⟨fun _ => isRandomDraw_zero,
   (C10_correlation_findings Host.fixture (fun _ => 1700000000000) (fun _ => 0) State.initial
      (fun _ => isRandomDraw_zero)).2.2.1⟩

/-! ## Frame properties: what each operation leaves untouched -/

/-- The `try` block of `handleAIQuery` writes no cell other than `aiResponse`. -/
theorem queryTry_frame (h : Host) (net : FetchOutcome) (s : State) :
    (queryTry h net s).state = { s with aiResponse := (queryTry h net s).state.aiResponse } := by
  rcases net with err | ⟨ok, body⟩
  · rfl
  · cases ok
    · rcases body with data | err
      · cases hg : data.getProp h "error" with
        | error e => simp [queryTry, BodyResult.json, hg, Completion.state]
        | ok e =>
          cases ht : (if e.toBoolean then e
              else JsValue.string "Failed to process query").toStringJs h with
          | error e2 => simp [queryTry, BodyResult.json, hg, ht, Completion.state]
          | ok text => simp [queryTry, BodyResult.json, hg, ht, Completion.state]
      · rfl
    · rcases body with data | err
      · cases hg : data.getProp h "response" with
        | error e => simp [queryTry, BodyResult.json, hg, Completion.state]
        | ok r => simp [queryTry, BodyResult.json, hg, Completion.state]
      · rfl

/-- The settle phase of `handleAIQuery` writes `aiResponse` and `isProcessing` only. -/
theorem handleAIQuery_settle_frame (h : Host) (net : FetchOutcome) (s : State) :
    (handleAIQuery_settle h net s).state =
      { s with isProcessing := (handleAIQuery_settle h net s).state.isProcessing,
               aiResponse := (handleAIQuery_settle h net s).state.aiResponse } := by
  have hf := queryTry_frame h net s
  unfold handleAIQuery_settle
  cases hq : queryTry h net s with
  | normal s1 =>
    rw [hq] at hf
    simp only [Completion.state] at hf
    simp only [jsFinally, jsTryCatch, Completion.state]
    rw [hf]
  | throws err s1 =>
    rw [hq] at hf
    simp only [Completion.state] at hf
    simp only [jsFinally, jsTryCatch, Completion.state]
    rw [hf]

/-- A whole call of `handleAIQuery` writes `aiResponse` and `isProcessing` only. -/
theorem handleAIQuery_frame (h : Host) (net : FetchOutcome) (s : State) :
    (handleAIQuery h net s).state =
      { s with isProcessing := (handleAIQuery h net s).state.isProcessing,
               aiResponse := (handleAIQuery h net s).state.aiResponse } := by
  unfold handleAIQuery
  cases hb : handleAIQuery_begin s with
  | none => rfl
  | some st =>
    have hst : st.state = { s with isProcessing := true, aiResponse := .string "" } := by
      unfold handleAIQuery_begin at hb
      split at hb
      · cases hb
      · injection hb with hb
        rw [← hb]
    have hf := handleAIQuery_settle_frame h net st.state
    simp only []
    rw [hf, hst]

/-- A health probe writes `backendStatus` only. -/
theorem checkBackendHealth_frame (h : Host) (net : FetchOutcome) (s : State) :
    (checkBackendHealth h net s).state =
      { s with backendStatus := (checkBackendHealth h net s).state.backendStatus } := by
  unfold checkBackendHealth checkBackendHealth_settle
  rcases net with err | ⟨ok, body⟩
  · rfl
  · cases ok
    · rfl
    · rcases body with data | err
      · cases hg : data.getProp h "status" with
        | error e => simp [healthTry, BodyResult.json, hg, jsTryCatch, Completion.state]
        | ok status => simp [healthTry, BodyResult.json, hg, jsTryCatch, Completion.state]
      · rfl

/-- An alarm refresh writes `alarms` only, also when it throws. -/
theorem generateAlarms_frame (h : Host) (clock : Nat → Int) (random : Nat → ℚ) (s : State) :
    (generateAlarms h clock random s).state =
      { s with alarms := (generateAlarms h clock random s).state.alarms } := by
  unfold generateAlarms
  cases generatedAlarms h clock random <;> rfl

/-- The batch an alarm refresh stores does not depend on the state it starts from, apart from
the previous batch, which is kept when the refresh throws. -/
theorem generateAlarms_alarms_congr (h : Host) (clock : Nat → Int) (random : Nat → ℚ)
    (s t : State) (hst : s.alarms = t.alarms) :
    (generateAlarms h clock random s).state.alarms =
      (generateAlarms h clock random t).state.alarms := by
  unfold generateAlarms
  cases generatedAlarms h clock random with
  | error e => exact hst
  | ok l => rfl

/-- C11: each engine operation changes only its own cells, for every host, state and input.
(1) A telemetry refresh leaves the state equal to the old one with `telemetryData` replaced.
(2) An alarm refresh leaves it equal to the old one with `alarms` replaced.  (3) A health probe
leaves it equal to the old one with `backendStatus` replaced.  (4) A query submit, for every
outcome of the request (success, application error, transport failure, unparsable body), leaves
it equal to the old one with `isProcessing` and `aiResponse` replaced, and so does its settle
phase on whatever state is present when the response arrives, and so do both UI triggers.
(5) Hence no query outcome alters `backendStatus`.  (6) When a telemetry refresh and an alarm
refresh both run, in either order, `telemetryData` is what the telemetry refresh alone stores,
`alarms` is what the alarm refresh alone stores, and the two orders end in the same state. -/
theorem C11_operations_change_only_their_own_state (h : Host) (s later : State)
    (net : FetchOutcome) (key : String) (now : Int) (clock : Nat → Int)
    (randomT randomA : Nat → ℚ) :
    generateTelemetryData h now randomT s =
      { s with telemetryData := (generateTelemetryData h now randomT s).telemetryData } ∧
    (generateAlarms h clock randomA s).state =
      { s with alarms := (generateAlarms h clock randomA s).state.alarms } ∧
    (checkBackendHealth h net s).state =
      { s with backendStatus := (checkBackendHealth h net s).state.backendStatus } ∧
    ((handleAIQuery h net s).state =
        { s with isProcessing := (handleAIQuery h net s).state.isProcessing,
                 aiResponse := (handleAIQuery h net s).state.aiResponse } ∧
      (handleAIQuery_settle h net later).state =
        { later with isProcessing := (handleAIQuery_settle h net later).state.isProcessing,
                     aiResponse := (handleAIQuery_settle h net later).state.aiResponse } ∧
      (queryInput_onKeyPress h net key s).state =
        { s with isProcessing := (queryInput_onKeyPress h net key s).state.isProcessing,
                 aiResponse := (queryInput_onKeyPress h net key s).state.aiResponse } ∧
      (queryButton_onClick h net s).state =
        { s with isProcessing := (queryButton_onClick h net s).state.isProcessing,
                 aiResponse := (queryButton_onClick h net s).state.aiResponse }) ∧
    ((handleAIQuery h net s).state.backendStatus = s.backendStatus ∧
      (handleAIQuery_settle h net later).state.backendStatus = later.backendStatus ∧
      (queryInput_onKeyPress h net key s).state.backendStatus = s.backendStatus) ∧
    ((generateAlarms h clock randomA (generateTelemetryData h now randomT s)).state.telemetryData =
        (generateTelemetryData h now randomT s).telemetryData ∧
      (generateAlarms h clock randomA (generateTelemetryData h now randomT s)).state.alarms =
        (generateAlarms h clock randomA s).state.alarms ∧
      (generateTelemetryData h now randomT (generateAlarms h clock randomA s).state).telemetryData =
        (generateTelemetryData h now randomT s).telemetryData ∧
      (generateTelemetryData h now randomT (generateAlarms h clock randomA s).state).alarms =
        (generateAlarms h clock randomA s).state.alarms ∧
      (generateAlarms h clock randomA (generateTelemetryData h now randomT s)).state =
        generateTelemetryData h now randomT (generateAlarms h clock randomA s).state) := by
  have hQ := handleAIQuery_frame h net s
  have hS := handleAIQuery_settle_frame h net later
  have hK : (queryInput_onKeyPress h net key s).state =
      { s with isProcessing := (queryInput_onKeyPress h net key s).state.isProcessing,
               aiResponse := (queryInput_onKeyPress h net key s).state.aiResponse } := by
    unfold queryInput_onKeyPress
    split
    · exact hQ
    · rfl
  have hB : (queryButton_onClick h net s).state =
      { s with isProcessing := (queryButton_onClick h net s).state.isProcessing,
               aiResponse := (queryButton_onClick h net s).state.aiResponse } := by
    unfold queryButton_onClick
    split
    · rfl
    · exact hQ
  have hA1 := generateAlarms_frame h clock randomA (generateTelemetryData h now randomT s)
  have hA2 := generateAlarms_alarms_congr h clock randomA
    (generateTelemetryData h now randomT s) s rfl
  have hA0 := generateAlarms_frame h clock randomA s
  refine ⟨rfl, hA0, checkBackendHealth_frame h net s, ⟨hQ, hS, hK, hB⟩, ⟨?_, ?_, ?_⟩,
    ⟨?_, hA2, rfl, rfl, ?_⟩⟩
  · rw [hQ]
  · rw [hS]
  · rw [hK]
  · rw [hA1]
  · rw [hA1, hA2]
    conv_rhs => rw [hA0]
    rfl

end RATIP
